import Mathlib

/-!
Verification development for the tile-creator geometry and tiling engine.

The TypeScript source is shallowly embedded over exact rational arithmetic.
JavaScript numbers are modelled by `Q`, an unnormalized fraction
(integer numerator, natural denominator); every finite double is such a
fraction, and all arithmetic used by the embedded code paths is exact on
them.  `Math.sqrt` is modelled by `mathSqrt`, a deterministic fixed-point
integer square root that is exact on perfect squares (the only square
roots the concrete test inputs exercise) and a close approximation
elsewhere.  `Math.atan2` is modelled by the standard pseudoangle: a
monotone, exactly-computable reparametrization of the circle in which a
full turn is 4 instead of 2*pi; antipodal directions differ by exactly 2,
so every angular-order and minor/major-arc comparison in the source is
preserved exactly, while epsilon-sized angular slops are measured in
pseudoangle units.  Strings are built with ordinary Lean strings and
structurally recursive character-list helpers so that every definition
evaluates inside the kernel.
-/

/-- Unnormalized rational: models a finite JavaScript number.  `den` is kept
positive by every constructor used in the embedding; `Wf` states that. -/
structure Q where
  num : Int
  den : Nat
deriving DecidableEq, Repr

/-- Well-formedness: positive denominator.  Every finite double satisfies it. -/
abbrev Q.Wf (q : Q) : Prop := 0 < q.den

/-- Value of a `Q` as a Lean rational (semantics used by the algebraic proofs). -/
def qVal (q : Q) : ℚ := (q.num : ℚ) / (q.den : ℚ)

def qOfInt (n : Int) : Q := ⟨n, 1⟩

instance : OfNat Q n := ⟨⟨(n : Int), 1⟩⟩

def qAdd (a b : Q) : Q := ⟨a.num * (b.den : Int) + b.num * (a.den : Int), a.den * b.den⟩

def qSub (a b : Q) : Q := ⟨a.num * (b.den : Int) - b.num * (a.den : Int), a.den * b.den⟩

def qMul (a b : Q) : Q := ⟨a.num * b.num, a.den * b.den⟩

def qNeg (a : Q) : Q := ⟨-a.num, a.den⟩

/-- Division.  JavaScript division by zero yields NaN/Infinity, which every
range check in the source subsequently rejects; the sentinel value used here
is likewise rejected by every such check (all divisions on evaluated code
paths are guarded by EPSILON tests, except the zero-length-line case in
`lineCircleIntersections`, where the sentinel reproduces the empty result). -/
def qDiv (a b : Q) : Q :=
  if b.num = 0 then ⟨10 ^ 30, 1⟩
  else ⟨a.num * (b.den : Int) * b.num.sign, a.den * b.num.natAbs⟩

instance : Add Q := ⟨qAdd⟩
instance : Sub Q := ⟨qSub⟩
instance : Mul Q := ⟨qMul⟩
instance : Div Q := ⟨qDiv⟩
instance : Neg Q := ⟨qNeg⟩

/-- Boolean `a <= b` by cross multiplication (denominators are positive). -/
def qle (a b : Q) : Bool := a.num * (b.den : Int) ≤ b.num * (a.den : Int)

/-- Boolean `a < b` by cross multiplication. -/
def qlt (a b : Q) : Bool := a.num * (b.den : Int) < b.num * (a.den : Int)

/-- Models `Math.abs`. -/
def mathAbs (a : Q) : Q := ⟨Int.ofNat a.num.natAbs, a.den⟩

/-- Models `Math.max` (on finite numbers). -/
def mathMax (a b : Q) : Q := if qle a b then b else a

/-- Models `Math.min` (on finite numbers). -/
def mathMin (a b : Q) : Q := if qle b a then b else a

/-- Fueled integer Newton iteration for the floor square root. -/
def isqrtAux : Nat → Nat → Nat → Nat
  | 0, _, g => g
  | fuel + 1, n, g =>
    let g2 := (g + n / g) / 2
    if g2 < g then isqrtAux fuel n g2 else g

/-- Floor square root of a natural number (structurally recursive so the
kernel can evaluate it; 256 Newton steps cover all magnitudes arising here). -/
def isqrt (n : Nat) : Nat := if n ≤ 1 then n else isqrtAux 256 n n

/-- Scale of the fixed-point square root: results carry 12 decimal digits. -/
def SQRT_PREC : Nat := 10 ^ 12

/-- Models `Math.sqrt`: the input value is floored to a fixed-point integer
(24 decimal digits) and its integer square root is taken, so the result
depends only on the value of the input (matching the determinism of the
double `Math.sqrt`), is exact for perfect squares with denominator 1, and is
otherwise accurate to about 12 decimal digits.  Non-positive input gives 0
(the source only takes square roots of non-negative guarded values). -/
def mathSqrt (q : Q) : Q :=
  if q.num ≤ 0 then ⟨0, 1⟩
  else ⟨Int.ofNat (isqrt (q.num.toNat * (SQRT_PREC * SQRT_PREC) / q.den)), SQRT_PREC⟩

/-- Models `Math.hypot` on two arguments. -/
def mathHypot (x y : Q) : Q := mathSqrt (x * x + y * y)

/-- Models `Math.round`: floor of `x + 1/2` (JavaScript rounds halves up). -/
def mathRound (q : Q) : Int := Int.fdiv (2 * q.num + (q.den : Int)) (2 * (q.den : Int))

/- ---------- character-list string helpers (structural, kernel-evaluable) ---------- -/

def natToStrAux : Nat → Nat → List Char → List Char
  | 0, _, acc => acc
  | fuel + 1, n, acc =>
    if n = 0 then acc else natToStrAux fuel (n / 10) (Char.ofNat (48 + n % 10) :: acc)

def natToStr (n : Nat) : String := if n = 0 then "0" else ⟨natToStrAux 40 n []⟩

def intToStr (i : Int) : String := (if i < 0 then "-" else "") ++ natToStr i.natAbs

def padZeros (k : Nat) (s : String) : String :=
  ⟨List.replicate (k - s.data.length) '0' ++ s.data⟩

def pow10 (k : Nat) : Nat := 10 ^ k

/-- Smallest exponent `k <= fuel` with `q * 10^k` integral, if any. -/
def decExpAux : Nat → Nat → Q → Option Nat
  | 0, _, _ => none
  | fuel + 1, k, q =>
    if q.num.natAbs * pow10 k % q.den = 0 then some k else decExpAux fuel (k + 1) q

/-- Models JavaScript number-to-string coercion for the terminating-decimal
values that reach the produced SVG text (integers print without a point,
other terminating decimals print with the minimal number of fraction
digits).  Values without a short terminating decimal never reach a string
on the evaluated code paths; they fall back to a fraction spelling. -/
def ratToStr (q : Q) : String :=
  match decExpAux 21 0 q with
  | some 0 => intToStr (q.num.sign * Int.ofNat (q.num.natAbs / q.den))
  | some k =>
    let m := q.num.natAbs * pow10 k / q.den
    (if q.num < 0 then "-" else "") ++
      natToStr (m / pow10 k) ++ "." ++ padZeros k (natToStr (m % pow10 k))
  | none => intToStr q.num ++ "/" ++ natToStr q.den

/-- Models `value.toFixed(4)`: sign taken from the value, magnitude rounded
half-up at the fourth decimal (ECMAScript `toFixed` negates, rounds with
ties picking the larger integer, then prepends the sign, so a tiny negative
value prints as `-0.0000`). -/
def toFixed4 (q : Q) : String :=
  let m := (q.num.natAbs * 20000 + q.den) / (2 * q.den)
  (if q.num < 0 then "-" else "") ++ natToStr (m / 10000) ++ "." ++ padZeros 4 (natToStr (m % 10000))

/- ---------- src/utils/math.ts ---------- -/

/-- EPSILON = 1e-6, the universal numeric tolerance (src/utils/math.ts). -/
def EPSILON : Q := ⟨1, 1000000⟩

structure Pt where
  x : Q
  y : Q
deriving DecidableEq, Repr

abbrev Pt.Wf (p : Pt) : Prop := p.x.Wf ∧ p.y.Wf

/-- distance (src/utils/math.ts): `Math.hypot(a.x - b.x, a.y - b.y)`. -/
def distance (a b : Pt) : Q := mathHypot (a.x - b.x) (a.y - b.y)

/-- add (src/utils/math.ts). -/
def add (a b : Pt) : Pt := ⟨a.x + b.x, a.y + b.y⟩

/-- subtract (src/utils/math.ts). -/
def subtract (a b : Pt) : Pt := ⟨a.x - b.x, a.y - b.y⟩

/-- scale (src/utils/math.ts). -/
def scale (p : Pt) (value : Q) : Pt := ⟨p.x * value, p.y * value⟩

/-- dot (src/utils/math.ts). -/
def dot (a b : Pt) : Q := a.x * b.x + a.y * b.y

/-- cross (src/utils/math.ts): 2D scalar cross product. -/
def cross (a b : Pt) : Q := a.x * b.y - a.y * b.x

/-- clamp (src/utils/math.ts). -/
def clamp (value minv maxv : Q) : Q := mathMin maxv (mathMax minv value)

/-- pointKey (src/utils/math.ts): fixed-precision string key; only ever
called at the default precision 4. -/
def pointKey (point : Pt) : String := toFixed4 point.x ++ ":" ++ toFixed4 point.y

/- ---------- src/types/model.ts (arc-era data model) ---------- -/

inductive TileShape
  | square
  | hexPointy
deriving DecidableEq, Repr

structure TileConfig where
  shape : TileShape
  size : Q
deriving Repr

structure PatternSize where
  columns : Nat
  rows : Nat
deriving Repr

structure LineP where
  id : String
  a : Pt
  b : Pt
  color : String
  strokeWidth : Option Q
deriving DecidableEq, Repr

structure CircleP where
  id : String
  center : Pt
  radius : Q
  color : String
  strokeWidth : Option Q
deriving DecidableEq, Repr

/-- Arc primitive; the source field `end` is spelled `aend` (`end` is a Lean
keyword). -/
structure ArcP where
  id : String
  center : Pt
  start : Pt
  aend : Pt
  clockwise : Bool
  largeArc : Bool
  color : String
  strokeWidth : Option Q
deriving DecidableEq, Repr

inductive Primitive
  | line (l : LineP)
  | circle (c : CircleP)
  | arc (a : ArcP)
deriving DecidableEq, Repr

/-- Project state restricted to the fields the embedded functions read. -/
structure ProjectState where
  tile : TileConfig
  primitives : List Primitive

structure ExportOptions where
  pattern : PatternSize
  background : Option String

/- ---------- pseudoangle model of Math.atan2 ---------- -/

/-- Models `Math.atan2(y, x)` by the pseudoangle: a strictly monotone,
exactly rational reparametrization of the circle with full turn 4 (instead
of 2*pi) and antipodal separation exactly 2 (instead of pi).  All angular
comparisons, cyclic orderings and minor/major decisions in the source are
therefore preserved exactly; only epsilon-sized angular tolerances are
measured in pseudoangle units instead of radians.  `atan2(0,0) = 0` as in
JavaScript. -/
def atan2Q (y x : Q) : Q :=
  let s := mathAbs x + mathAbs y
  if s.num = 0 then ⟨0, 1⟩
  else if qle ⟨0, 1⟩ y then qOfInt 1 - x / s
  else qOfInt 3 + x / s

/-- Full turn in the pseudoangle parametrization (models TAU = 2*pi). -/
def TAU : Q := ⟨4, 1⟩

/- ---------- src/geometry/tile.ts ---------- -/

/-- Fixed-point model of sqrt(3), used by the hexagon closed forms. -/
def sqrt3Q : Q := mathSqrt ⟨3, 1⟩

/-- getTilePolygon (src/geometry/tile.ts).  The hexagon branch evaluates
`size * cos/sin((-90 + 60 i) degrees)`; those cosines and sines are the
closed-form values 0, +-1, +-1/2 and +-sqrt(3)/2, written out here with
sqrt(3) modelled by `mathSqrt`. -/
def getTilePolygon (config : TileConfig) : List Pt :=
  match config.shape with
  | .square =>
    let s := config.size
    [⟨-s, -s⟩, ⟨s, -s⟩, ⟨s, s⟩, ⟨-s, s⟩]
  | .hexPointy =>
    let r := config.size
    let h := sqrt3Q * r / qOfInt 2
    [⟨0, -r⟩, ⟨h, -(r / qOfInt 2)⟩, ⟨h, r / qOfInt 2⟩,
     ⟨0, r⟩, ⟨-h, r / qOfInt 2⟩, ⟨-h, -(r / qOfInt 2)⟩]

/-- Midpoints of consecutive polygon edges, cyclically (the loop body of
getSeedSnapPoints). -/
def edgeMidpoints (polygon : List Pt) : List Pt :=
  (List.range polygon.length).map fun i =>
    let a := polygon.getD i ⟨0, 0⟩
    let b := polygon.getD ((i + 1) % polygon.length) ⟨0, 0⟩
    ⟨(a.x + b.x) / qOfInt 2, (a.y + b.y) / qOfInt 2⟩

/-- getSeedSnapPoints (src/geometry/tile.ts): polygon vertices, then edge
midpoints, then the origin. -/
def getSeedSnapPoints (config : TileConfig) : List Pt :=
  let polygon := getTilePolygon config
  polygon ++ edgeMidpoints polygon ++ [⟨0, 0⟩]

/-- tileBasisVectors (src/geometry/tile.ts). -/
def tileBasisVectors (config : TileConfig) : Pt × Pt :=
  match config.shape with
  | .square =>
    let d := config.size * qOfInt 2
    (⟨d, 0⟩, ⟨0, d⟩)
  | .hexPointy =>
    let r := config.size
    (⟨sqrt3Q * r, 0⟩, ⟨sqrt3Q * r / qOfInt 2, qOfInt 3 * r / qOfInt 2⟩)

/-- periodicNeighborOffsets (src/geometry/tile.ts): the 9 lattice offsets
`i*u + j*v`, i and j ranging over -1, 0, 1 in loop order. -/
def periodicNeighborOffsets (config : TileConfig) : List Pt :=
  let (u, v) := tileBasisVectors config
  ([-1, 0, 1] : List Int).flatMap fun i =>
    ([-1, 0, 1] : List Int).map fun j =>
      ⟨qOfInt i * u.x + qOfInt j * v.x, qOfInt i * u.y + qOfInt j * v.y⟩

/-- translatePoints (src/geometry/tile.ts). -/
def translatePoints (points : List Pt) (offset : Pt) : List Pt :=
  points.map fun p => ⟨p.x + offset.x, p.y + offset.y⟩

/- ---------- src/geometry/transforms.ts ---------- -/

/-- translatePrimitive (src/geometry/transforms.ts): a line gets both
endpoints shifted; any other primitive is spread with only `center`
shifted — so an arc keeps its stored `start`/`end` unchanged. -/
def translatePrimitive (primitive : Primitive) (offset : Pt) : Primitive :=
  match primitive with
  | .line l =>
    .line { l with
      a := ⟨l.a.x + offset.x, l.a.y + offset.y⟩
      b := ⟨l.b.x + offset.x, l.b.y + offset.y⟩ }
  | .circle c =>
    .circle { c with center := ⟨c.center.x + offset.x, c.center.y + offset.y⟩ }
  | .arc a =>
    .arc { a with center := ⟨a.center.x + offset.x, a.center.y + offset.y⟩ }

/- ---------- src/geometry/arc.ts ---------- -/

/-- normalizeAngle (src/geometry/arc.ts): truncated remainder by TAU followed
by the negative fix, which equals the flooring remainder into `[0, TAU)`. -/
def normalizeAngle (value : Q) : Q :=
  value - qOfInt (4 * Int.fdiv value.num (4 * (value.den : Int)))

/-- angleFromCenter (src/geometry/arc.ts). -/
def angleFromCenter (center point : Pt) : Q :=
  atan2Q (point.y - center.y) (point.x - center.x)

/-- sweepDelta (src/geometry/arc.ts): angular travel from start to end in the
given direction, in `[0, TAU)`. -/
def sweepDelta (startAngle endAngle : Q) (clockwise : Bool) : Q :=
  if clockwise then normalizeAngle (endAngle - startAngle)
  else normalizeAngle (startAngle - endAngle)

/-- arcRadius (src/geometry/arc.ts). -/
def arcRadius (arc : ArcP) : Q := distance arc.center arc.start

/-- projectPointToCircle (src/geometry/arc.ts). -/
def projectPointToCircle (center : Pt) (radius : Q) (point : Pt) : Pt :=
  if qlt radius EPSILON then center
  else
    let offsetX := point.x - center.x
    let offsetY := point.y - center.y
    let magnitude := mathHypot offsetX offsetY
    if qlt magnitude EPSILON then ⟨center.x + radius, center.y⟩
    else
      let scl := radius / magnitude
      ⟨center.x + offsetX * scl, center.y + offsetY * scl⟩

/-- isClockwiseMinorArc (src/geometry/arc.ts): true iff the clockwise travel
from the start angle to the end angle is at most the counterclockwise one. -/
def isClockwiseMinorArc (center start aend : Pt) : Bool :=
  let startAngle := angleFromCenter center start
  let endAngle := angleFromCenter center aend
  let clockwiseDelta := sweepDelta startAngle endAngle true
  let counterclockwiseDelta := sweepDelta startAngle endAngle false
  qle clockwiseDelta counterclockwiseDelta

structure SweepInfo where
  startAngle : Q
  clockwise : Bool
  delta : Q

/-- resolveArcSweep (src/geometry/arc.ts). -/
def resolveArcSweep (arc : ArcP) : SweepInfo :=
  let startAngle := angleFromCenter arc.center arc.start
  let endAngle := angleFromCenter arc.center arc.aend
  let clockwiseMinor := isClockwiseMinorArc arc.center arc.start arc.aend
  let minorDelta := sweepDelta startAngle endAngle clockwiseMinor
  { startAngle := startAngle
    clockwise := if arc.largeArc then !clockwiseMinor else clockwiseMinor
    delta := if arc.largeArc then TAU - minorDelta else minorDelta }

/-- normalizeArc (src/geometry/arc.ts): the working radius is the stored
start radius when that exceeds EPSILON, otherwise the end radius, floored at
EPSILON; both endpoints are projected onto that circle and `clockwise` is
recomputed as the minor-arc direction. -/
def normalizeArc (arc : ArcP) : ArcP :=
  let startRadius := distance arc.center arc.start
  let endRadius := distance arc.center arc.aend
  let radius := mathMax EPSILON (if qlt EPSILON startRadius then startRadius else endRadius)
  let start := projectPointToCircle arc.center radius arc.start
  let aend := projectPointToCircle arc.center radius arc.aend
  { arc with
    start := start
    aend := aend
    clockwise := isClockwiseMinorArc arc.center start aend }

/-- isPointOnArcSweep (src/geometry/arc.ts); the source epsilon parameter
defaults to EPSILON, callers in scope pass it explicitly. -/
def isPointOnArcSweep (point : Pt) (arc : ArcP) (epsilon : Q) : Bool :=
  let normalized := normalizeArc arc
  let sweep := resolveArcSweep normalized
  let pointAngle := angleFromCenter normalized.center point
  let traveled := sweepDelta sweep.startAngle pointAngle sweep.clockwise
  qle (-epsilon) traveled && qle traveled (sweep.delta + epsilon)

/- ---------- src/geometry/intersections.ts ---------- -/

/-- lineLineIntersectionSegment (src/geometry/intersections.ts). -/
def lineLineIntersectionSegment (a b : LineP) : List Pt :=
  let p := a.a
  let r := subtract a.b a.a
  let q := b.a
  let s := subtract b.b b.a
  let rxs := cross r s
  let qmp := subtract q p
  if qlt (mathAbs rxs) EPSILON then []
  else
    let t := cross qmp s / rxs
    let u := cross qmp r / rxs
    if qlt t (-EPSILON) || qlt (qOfInt 1 + EPSILON) t ||
        qlt u (-EPSILON) || qlt (qOfInt 1 + EPSILON) u then []
    else [add p (scale r t)]

/-- lineCircleIntersections (src/geometry/intersections.ts). -/
def lineCircleIntersections (line : LineP) (circle : CircleP) : List Pt :=
  let d := subtract line.b line.a
  let f := subtract line.a circle.center
  let a := dot d d
  let b := qOfInt 2 * dot f d
  let c := dot f f - circle.radius * circle.radius
  let discriminant := b * b - qOfInt 4 * a * c
  if qlt discriminant (-EPSILON) then []
  else if qlt (mathAbs discriminant) EPSILON then
    let t := -b / (qOfInt 2 * a)
    if qle (-EPSILON) t && qle t (qOfInt 1 + EPSILON) then [add line.a (scale d t)]
    else []
  else
    let sq := mathSqrt (mathMax 0 discriminant)
    let t1 := (-b + sq) / (qOfInt 2 * a)
    let t2 := (-b - sq) / (qOfInt 2 * a)
    (if qle (-EPSILON) t1 && qle t1 (qOfInt 1 + EPSILON) then [add line.a (scale d t1)] else []) ++
      (if qle (-EPSILON) t2 && qle t2 (qOfInt 1 + EPSILON) then [add line.a (scale d t2)] else [])

/-- circleCircleIntersections (src/geometry/intersections.ts). -/
def circleCircleIntersections (a b : CircleP) : List Pt :=
  let d := distance a.center b.center
  if qlt d EPSILON then []
  else if qlt (a.radius + b.radius + EPSILON) d then []
  else if qlt d (mathAbs (a.radius - b.radius) - EPSILON) then []
  else
    let p2 := (a.radius * a.radius - b.radius * b.radius + d * d) / (qOfInt 2 * d)
    let h2 := a.radius * a.radius - p2 * p2
    if qlt h2 (-EPSILON) then []
    else
      let h := mathSqrt (mathMax 0 h2)
      let v : Pt := ⟨(b.center.x - a.center.x) / d, (b.center.y - a.center.y) / d⟩
      let base : Pt := ⟨a.center.x + p2 * v.x, a.center.y + p2 * v.y⟩
      if qlt h EPSILON then [base]
      else
        [⟨base.x + -v.y * h, base.y + v.x * h⟩,
         ⟨base.x - -v.y * h, base.y - v.x * h⟩]

/-- circleFromArc (src/geometry/intersections.ts): the arc's full supporting
circle, taken from the normalized arc. -/
def circleFromArc (arc : ArcP) : CircleP :=
  let normalized := normalizeArc arc
  { id := normalized.id
    center := normalized.center
    radius := arcRadius normalized
    color := normalized.color
    strokeWidth := normalized.strokeWidth }

/-- filterPointsOnArc (src/geometry/intersections.ts): keep the points on the
normalized arc's sweep, tolerance 1e-4. -/
def filterPointsOnArc (points : List Pt) (arc : ArcP) : List Pt :=
  let normalized := normalizeArc arc
  points.filter fun point => isPointOnArcSweep point normalized ⟨1, 10000⟩

/-- Dispatch on the kind pair, exactly the if/else chain in the loop body of
`intersections` (src/geometry/intersections.ts). -/
def pairIntersections (a b : Primitive) : List Pt :=
  match a, b with
  | .line la, .line lb => lineLineIntersectionSegment la lb
  | .line la, .circle cb => lineCircleIntersections la cb
  | .circle ca, .line lb => lineCircleIntersections lb ca
  | .line la, .arc ab => filterPointsOnArc (lineCircleIntersections la (circleFromArc ab)) ab
  | .arc aa, .line lb => filterPointsOnArc (lineCircleIntersections lb (circleFromArc aa)) aa
  | .circle ca, .circle cb => circleCircleIntersections ca cb
  | .circle ca, .arc ab => filterPointsOnArc (circleCircleIntersections ca (circleFromArc ab)) ab
  | .arc aa, .circle cb => filterPointsOnArc (circleCircleIntersections (circleFromArc aa) cb) aa
  | .arc aa, .arc ab =>
    (circleCircleIntersections (circleFromArc aa) (circleFromArc ab)).filter fun point =>
      isPointOnArcSweep point (normalizeArc aa) ⟨1, 10000⟩ &&
        isPointOnArcSweep point (normalizeArc ab) ⟨1, 10000⟩

/-- All index pairs i < j in loop order. -/
def orderedPairs : List α → List (α × α)
  | [] => []
  | x :: xs => xs.map (fun y => (x, y)) ++ orderedPairs xs

/-- JavaScript `Map.set`: an existing key keeps its insertion position but
receives the new value; a new key is appended. -/
def mapSet (m : List (String × Pt)) (key : String) (v : Pt) : List (String × Pt) :=
  match m with
  | [] => [(key, v)]
  | (k, w) :: rest => if k = key then (k, v) :: rest else (k, w) :: mapSet rest key v

/-- The `pointKey`-keyed Map dedup used at the end of `intersections` and of
`gatherSnapPoints`: insertion-ordered, last value per key wins. -/
def dedupPoints (points : List Pt) : List Pt :=
  (points.foldl (fun m p => mapSet m (pointKey p) p) []).map Prod.snd

/-- intersections (src/geometry/intersections.ts): every unordered pair in
loop order, dispatched by kind, results deduplicated via `pointKey`. -/
def intersections (primitives : List Primitive) : List Pt :=
  dedupPoints ((orderedPairs primitives).flatMap fun pr => pairIntersections pr.1 pr.2)

/- ---------- src/geometry/snapping.ts ---------- -/

/-- gatherSnapPoints (src/geometry/snapping.ts): line endpoints and
midpoints; for every non-line primitive only its `center` (the circle and
arc cases both land in the source's `else` branch); then all pairwise
intersections and the tile seed points, deduplicated by `pointKey`. -/
def gatherSnapPoints (primitives : List Primitive) (tile : TileConfig) : List Pt :=
  let points := primitives.flatMap fun primitive =>
    match primitive with
    | .line l => [l.a, l.b, ⟨(l.a.x + l.b.x) / qOfInt 2, (l.a.y + l.b.y) / qOfInt 2⟩]
    | .circle c => [c.center]
    | .arc a => [a.center]
  dedupPoints (points ++ intersections primitives ++ getSeedSnapPoints tile)

/- ---------- src/state/projectState.ts (stroke width helpers) ---------- -/

/-- normalizeStrokeWidth (src/state/projectState.ts): missing (or NaN) stroke
widths become the fixed default 2; present ones are clamped to [0.5, 4] and
rounded to the nearest 0.5 step. -/
def normalizeStrokeWidth (value : Option Q) : Q :=
  match value with
  | none => ⟨2, 1⟩
  | some v =>
    let clamped := mathMin ⟨4, 1⟩ (mathMax ⟨1, 2⟩ v)
    qOfInt (mathRound (clamped / ⟨1, 2⟩)) * ⟨1, 2⟩

/-- getPrimitiveStrokeWidth (src/state/projectState.ts). -/
def getPrimitiveStrokeWidth (primitive : Primitive) : Q :=
  normalizeStrokeWidth
    (match primitive with
     | .line l => l.strokeWidth
     | .circle c => c.strokeWidth
     | .arc a => a.strokeWidth)

/- ---------- export pipeline (plotter exportSvg, src/unnamed/part_019) ---------- -/

/-- CLIP_EPSILON = 1e-6 (part_019). -/
def CLIP_EPSILON : Q := ⟨1, 1000000⟩

structure LineFrag where
  color : String
  strokeWidth : Q
  a : Pt
  b : Pt
deriving DecidableEq, Repr

structure CircleFrag where
  color : String
  strokeWidth : Q
  center : Pt
  radius : Q
deriving DecidableEq, Repr

/-- Arc render fragment; the source field `end` is spelled `aend`. -/
structure ArcFrag where
  color : String
  strokeWidth : Q
  center : Pt
  radius : Q
  start : Pt
  aend : Pt
  clockwise : Bool
  largeArc : Bool
deriving DecidableEq, Repr

inductive RenderFragment
  | line (f : LineFrag)
  | circle (f : CircleFrag)
  | arc (f : ArcFrag)
deriving DecidableEq, Repr

structure LinePathFrag where
  color : String
  strokeWidth : Q
  points : List Pt
deriving DecidableEq, Repr

/-- The plotter output fragments (TS `OutputRenderFragment`): a joined line
path, an untouched circle, or an untouched arc — by type, no plain line. -/
inductive OutputFragment
  | linePath (f : LinePathFrag)
  | circle (f : CircleFrag)
  | arc (f : ArcFrag)
deriving DecidableEq, Repr

structure PolygonEdge where
  a : Pt
  b : Pt
  inwardNormal : Pt
deriving DecidableEq, Repr

structure ArcSweep where
  center : Pt
  radius : Q
  startAngle : Q
  clockwise : Bool
  delta : Q

/-- angularTravel (part_019): identical to `sweepDelta` from arc.ts. -/
def angularTravel (startAngle endAngle : Q) (clockwise : Bool) : Q :=
  if clockwise then normalizeAngle (endAngle - startAngle)
  else normalizeAngle (startAngle - endAngle)

/-- Direction vector of a pseudoangle: the inverse of `atan2Q` mapped back to
the unit circle (models `(Math.cos a, Math.sin a)`; the length normalization
uses `mathSqrt`). -/
def dirOfAngle (q : Q) : Pt :=
  let a := normalizeAngle q
  let p : Pt :=
    if qle a (qOfInt 2) then ⟨qOfInt 1 - a, qOfInt 1 - mathAbs (qOfInt 1 - a)⟩
    else ⟨a - qOfInt 3, -(qOfInt 1 - mathAbs (a - qOfInt 3))⟩
  let m := mathHypot p.x p.y
  if m.num = 0 then ⟨⟨1, 1⟩, ⟨0, 1⟩⟩ else ⟨p.x / m, p.y / m⟩

/-- pointOnCircle (part_019). -/
def pointOnCircle (center : Pt) (radius angle : Q) : Pt :=
  let dir := dirOfAngle angle
  ⟨center.x + radius * dir.x, center.y + radius * dir.y⟩

/-- pointOnSweep (part_019). -/
def pointOnSweep (sweep : ArcSweep) (travel : Q) : Pt :=
  let angle := if sweep.clockwise then sweep.startAngle + travel else sweep.startAngle - travel
  pointOnCircle sweep.center sweep.radius (normalizeAngle angle)

/-- polygonSignedArea (part_019). -/
def polygonSignedArea (points : List Pt) : Q :=
  ((List.range points.length).foldl
      (fun area i =>
        let current := points.getD i ⟨0, 0⟩
        let next := points.getD ((i + 1) % points.length) ⟨0, 0⟩
        area + (current.x * next.y - current.y * next.x))
      0) / qOfInt 2

/-- convexPolygonEdges (part_019): inward normal sign from the winding. -/
def convexPolygonEdges (polygon : List Pt) : List PolygonEdge :=
  let orient : Int := if qle 0 (polygonSignedArea polygon) then 1 else -1
  (List.range polygon.length).map fun i =>
    let a := polygon.getD i ⟨0, 0⟩
    let b := polygon.getD ((i + 1) % polygon.length) ⟨0, 0⟩
    let edge := subtract b a
    let inwardNormal : Pt := if orient > 0 then ⟨-edge.y, edge.x⟩ else ⟨edge.y, -edge.x⟩
    ⟨a, b, inwardNormal⟩

/-- pointInConvexPolygon (part_019): half-plane test against every edge. -/
def pointInConvexPolygon (point : Pt) (edges : List PolygonEdge) : Bool :=
  edges.all fun edge => !(qlt (dot edge.inwardNormal (subtract point edge.a)) (-CLIP_EPSILON))

/-- Ascending insertion (models the numeric `sort((a, b) => a - b)`). -/
def insertSorted (v : Q) : List Q → List Q
  | [] => [v]
  | x :: xs => if qle v x then v :: x :: xs else x :: insertSorted v xs

def sortQ (values : List Q) : List Q := values.foldl (fun acc v => insertSorted v acc) []

/-- Adjacent dedup against the last kept value (the loop in dedupeSorted). -/
def dedupAdj (epsilon : Q) : Q → List Q → List Q
  | _, [] => []
  | last, v :: rest =>
    if qlt epsilon (mathAbs (v - last)) then v :: dedupAdj epsilon v rest
    else dedupAdj epsilon last rest

/-- dedupeSorted (part_019). -/
def dedupeSorted (values : List Q) (epsilon : Q) : List Q :=
  match sortQ values with
  | [] => []
  | x :: xs => x :: dedupAdj epsilon x xs

/-- dedupeAngles (part_019): normalize, sort-dedup, and drop the last angle
when it wraps onto the first one. -/
def dedupeAngles (values : List Q) : List Q :=
  let deduped := dedupeSorted (values.map normalizeAngle) CLIP_EPSILON
  if deduped.length ≤ 1 then deduped
  else if qle (deduped.headD 0 + TAU - deduped.getLastD 0) CLIP_EPSILON then deduped.dropLast
  else deduped

/-- intersectCircleSegment (part_019): circle against the segment a-b,
parameters clamped to [0, 1]. -/
def intersectCircleSegment (center : Pt) (radius : Q) (a b : Pt) : List Pt :=
  let direction := subtract b a
  let fromCenter := subtract a center
  let aa := dot direction direction
  if qle aa EPSILON then []
  else
    let bb := qOfInt 2 * dot fromCenter direction
    let cc := dot fromCenter fromCenter - radius * radius
    let discriminant := bb * bb - qOfInt 4 * aa * cc
    if qlt discriminant (-CLIP_EPSILON) then []
    else
      let ts :=
        if qle (mathAbs discriminant) CLIP_EPSILON then [-bb / (qOfInt 2 * aa)]
        else
          let sq := mathSqrt (mathMax 0 discriminant)
          [(-bb - sq) / (qOfInt 2 * aa), (-bb + sq) / (qOfInt 2 * aa)]
      ts.filterMap fun t =>
        if qlt t (-CLIP_EPSILON) || qlt (qOfInt 1 + CLIP_EPSILON) t then none
        else
          let clampedT := mathMax 0 (mathMin 1 t)
          some ⟨a.x + direction.x * clampedT, a.y + direction.y * clampedT⟩

/-- The edge walk of clipLineToConvexPolygon: update the admissible
parameter interval, rejecting early like the source's `return []`. -/
def clipLineWalk (pa direction : Pt) : List PolygonEdge → Q → Q → Option (Q × Q)
  | [], tEnter, tExit => some (tEnter, tExit)
  | edge :: rest, tEnter, tExit =>
    let offset := dot edge.inwardNormal (subtract pa edge.a)
    let denominator := dot edge.inwardNormal direction
    if qle (mathAbs denominator) CLIP_EPSILON then
      if qlt offset (-CLIP_EPSILON) then none
      else clipLineWalk pa direction rest tEnter tExit
    else
      let t := -offset / denominator
      let tEnter2 := if qlt 0 denominator then mathMax tEnter t else tEnter
      let tExit2 := if qlt 0 denominator then tExit else mathMin tExit t
      if qlt CLIP_EPSILON (tEnter2 - tExit2) then none
      else clipLineWalk pa direction rest tEnter2 tExit2

/-- clipLineToConvexPolygon (part_019). -/
def clipLineToConvexPolygon (primitive : LineP) (edges : List PolygonEdge)
    (strokeWidth : Q) : List LineFrag :=
  let direction := subtract primitive.b primitive.a
  match clipLineWalk primitive.a direction edges 0 1 with
  | none => []
  | some (tEnter, tExit) =>
    let startT := mathMax 0 (mathMin 1 tEnter)
    let endT := mathMax 0 (mathMin 1 tExit)
    if qle (endT - startT) CLIP_EPSILON then []
    else
      [{ color := primitive.color
         strokeWidth := strokeWidth
         a := ⟨primitive.a.x + direction.x * startT, primitive.a.y + direction.y * startT⟩
         b := ⟨primitive.a.x + direction.x * endT, primitive.a.y + direction.y * endT⟩ }]

/-- resolveArcSweep (part_019's local version, producing an `ArcSweep`). -/
def resolveArcSweepFragment (arc : ArcP) : ArcSweep :=
  let normalized := normalizeArc arc
  let startAngle := angleFromCenter normalized.center normalized.start
  let endAngle := angleFromCenter normalized.center normalized.aend
  let clockwiseMinor := isClockwiseMinorArc normalized.center normalized.start normalized.aend
  let minorDelta := angularTravel startAngle endAngle clockwiseMinor
  { center := normalized.center
    radius := mathMax EPSILON
      (mathHypot (normalized.start.x - normalized.center.x) (normalized.start.y - normalized.center.y))
    startAngle := normalizeAngle startAngle
    clockwise := if normalized.largeArc then !clockwiseMinor else clockwiseMinor
    delta := if normalized.largeArc then TAU - minorDelta else minorDelta }

/-- createArcFragment (part_019); `delta > pi` reads `delta > 2` in
pseudoangle units. -/
def createArcFragment (center : Pt) (radius startAngle endAngle : Q) (clockwise : Bool)
    (color : String) (strokeWidth : Q) : Option ArcFrag :=
  let delta := angularTravel startAngle endAngle clockwise
  if qle delta CLIP_EPSILON then none
  else
    some
      { color := color
        strokeWidth := strokeWidth
        center := center
        radius := radius
        start := pointOnCircle center radius startAngle
        aend := pointOnCircle center radius endAngle
        clockwise := clockwise
        largeArc := qlt (qOfInt 2 + CLIP_EPSILON) delta }

/-- clipCircleToConvexPolygon (part_019). -/
def clipCircleToConvexPolygon (primitive : CircleP) (edges : List PolygonEdge)
    (strokeWidth : Q) : List RenderFragment :=
  let radius := mathMax EPSILON primitive.radius
  let inters := edges.flatMap fun edge => intersectCircleSegment primitive.center radius edge.a edge.b
  let angles := dedupeAngles (inters.map fun point => angleFromCenter primitive.center point)
  if angles.length = 0 then
    if !(pointInConvexPolygon (pointOnCircle primitive.center radius 0) edges) then []
    else [.circle ⟨primitive.color, strokeWidth, primitive.center, radius⟩]
  else
    (List.range angles.length).flatMap fun i =>
      let start := angles.getD i 0
      let done := if i = angles.length - 1 then angles.getD 0 0 + TAU else angles.getD (i + 1) 0
      let delta := done - start
      if qle delta CLIP_EPSILON then []
      else
        let sample := pointOnCircle primitive.center radius (normalizeAngle (start + delta / qOfInt 2))
        if !(pointInConvexPolygon sample edges) then []
        else if qle (TAU - CLIP_EPSILON) delta then
          [.circle ⟨primitive.color, strokeWidth, primitive.center, radius⟩]
        else
          match createArcFragment primitive.center radius (normalizeAngle start)
              (normalizeAngle done) true primitive.color strokeWidth with
          | some arcf => [.arc arcf]
          | none => []

/-- clipArcToConvexPolygon (part_019): split the sweep at polygon crossings
and keep the sub-intervals whose midpoint lies inside. -/
def clipArcToConvexPolygon (primitive : ArcP) (edges : List PolygonEdge)
    (strokeWidth : Q) : List ArcFrag :=
  let sweep := resolveArcSweepFragment primitive
  if qle sweep.delta CLIP_EPSILON then []
  else
    let splitTravels :=
      [0, sweep.delta] ++
        edges.flatMap fun edge =>
          (intersectCircleSegment sweep.center sweep.radius edge.a edge.b).filterMap fun point =>
            let angle := angleFromCenter sweep.center point
            let travel := angularTravel sweep.startAngle angle sweep.clockwise
            if qlt CLIP_EPSILON travel && qlt travel (sweep.delta - CLIP_EPSILON) then some travel
            else none
    let travels := dedupeSorted splitTravels CLIP_EPSILON
    (List.range (travels.length - 1)).flatMap fun i =>
      let startTravel := travels.getD i 0
      let endTravel := travels.getD (i + 1) 0
      if qle (endTravel - startTravel) CLIP_EPSILON then []
      else
        let sample := pointOnSweep sweep ((startTravel + endTravel) / qOfInt 2)
        if !(pointInConvexPolygon sample edges) then []
        else
          let startPoint := pointOnSweep sweep startTravel
          let endPoint := pointOnSweep sweep endTravel
          match createArcFragment sweep.center sweep.radius
              (angleFromCenter sweep.center startPoint) (angleFromCenter sweep.center endPoint)
              sweep.clockwise primitive.color strokeWidth with
          | some f => [f]
          | none => []

/-- clipPrimitiveToConvexPolygon (part_019). -/
def clipPrimitiveToConvexPolygon (primitive : Primitive) (edges : List PolygonEdge) :
    List RenderFragment :=
  let strokeWidth := getPrimitiveStrokeWidth primitive
  match primitive with
  | .line l => (clipLineToConvexPolygon l edges strokeWidth).map .line
  | .circle c => clipCircleToConvexPolygon c edges strokeWidth
  | .arc a => (clipArcToConvexPolygon a edges strokeWidth).map .arc

/-- quantize (part_019): round at KEY_PRECISION = 4, normalize -0, print
with toFixed(4). -/
def quantize (value : Q) : String :=
  let n := mathRound (value * ⟨10000, 1⟩)
  (if n < 0 then "-" else "") ++ natToStr (n.natAbs / 10000) ++ "." ++ padZeros 4 (natToStr (n.natAbs % 10000))

/-- quantizedPoint (part_019). -/
def quantizedPoint (point : Pt) : String := quantize point.x ++ "," ++ quantize point.y

def splitComma : List Char → List Char × List Char
  | [] => ([], [])
  | c :: rest =>
    if c = ',' then ([], rest)
    else
      let (a, b) := splitComma rest
      (c :: a, b)

def parseDecAux : List Char → Int → Nat → Bool → Q
  | [], n, den, _ => ⟨n, den⟩
  | c :: rest, n, den, seenDot =>
    if c = '.' then parseDecAux rest n den true
    else parseDecAux rest (10 * n + Int.ofNat (c.toNat - 48)) (if seenDot then den * 10 else den) seenDot

/-- Models `Number(...)` on the fixed-decimal strings produced by
`quantizedPoint` (sign, integer digits, optional fraction digits). -/
def parseDec (l : List Char) : Q :=
  match l with
  | '-' :: rest =>
    let q := parseDecAux rest 0 1 false
    ⟨-q.num, q.den⟩
  | _ => parseDecAux l 0 1 false

/-- pointFromQuantizedKey (part_019): split at the comma and parse back. -/
def pointFromQuantizedKey (key : String) : Pt :=
  let (xs, ys) := splitComma key.data
  ⟨parseDec xs, parseDec ys⟩

/-- styleBucketKey (part_019). -/
def styleBucketKey (color : String) (strokeWidth : Q) : String :=
  color ++ "|" ++ quantize strokeWidth

/-- Lexicographic char-list order (models the JavaScript string `<=` on the
ASCII key strings used here). -/
def lexLe : List Char → List Char → Bool
  | [], _ => true
  | _ :: _, [] => false
  | a :: as2, b :: bs => if a = b then lexLe as2 bs else decide (a.toNat < b.toNat)

def strLe (a b : String) : Bool := lexLe a.data b.data

/-- dedupeKey (part_019): order-independent key per fragment kind; an arc key
is the smaller of its forward spelling and its point-reversed,
direction-flipped spelling. -/
def dedupeKey (fragment : RenderFragment) : String :=
  match fragment with
  | .line f =>
    let styleKey := f.color ++ "|" ++ quantize f.strokeWidth
    let start := quantizedPoint f.a
    let done := quantizedPoint f.b
    let fs := if strLe start done then (start, done) else (done, start)
    "line|" ++ fs.1 ++ "|" ++ fs.2 ++ "|" ++ styleKey
  | .circle f =>
    let styleKey := f.color ++ "|" ++ quantize f.strokeWidth
    "circle|" ++ quantizedPoint f.center ++ "|" ++ quantize f.radius ++ "|" ++ styleKey
  | .arc f =>
    let styleKey := f.color ++ "|" ++ quantize f.strokeWidth
    let center := quantizedPoint f.center
    let radius := quantize f.radius
    let start := quantizedPoint f.start
    let done := quantizedPoint f.aend
    let cw := if f.clockwise then "1" else "0"
    let cwFlip := if f.clockwise then "0" else "1"
    let la := if f.largeArc then "1" else "0"
    let forward := "arc|" ++ center ++ "|" ++ radius ++ "|" ++ start ++ "|" ++ done ++ "|" ++ cw ++ "|" ++ la ++ "|" ++ styleKey
    let reversed := "arc|" ++ center ++ "|" ++ radius ++ "|" ++ done ++ "|" ++ start ++ "|" ++ cwFlip ++ "|" ++ la ++ "|" ++ styleKey
    if strLe forward reversed then forward else reversed

/-- dedupeFragments (part_019): first representative per key wins, insertion
order kept (`if (!unique.has(key)) unique.set(key, fragment)`). -/
def dedupeFragments (fragments : List RenderFragment) : List RenderFragment :=
  (fragments.foldl
      (fun m f =>
        let k := dedupeKey f
        if m.any (fun p => p.1 = k) then m else m ++ [(k, f)])
      []).map Prod.snd

structure LineGraphNode where
  key : String
  point : Pt
  edgeIds : List Nat
deriving Repr

structure LineGraphEdge where
  a : String
  b : String
  used : Bool
deriving Repr

/-- ensureNode followed by pushing an edge id (part_019's graph build). -/
def nodeAddEdge (nodes : List LineGraphNode) (key : String) (edgeId : Nat) : List LineGraphNode :=
  match nodes with
  | [] => [⟨key, pointFromQuantizedKey key, [edgeId]⟩]
  | n :: rest =>
    if n.key = key then ⟨n.key, n.point, n.edgeIds ++ [edgeId]⟩ :: rest
    else n :: nodeAddEdge rest key edgeId

/-- The graph-building loop of buildJoinedLinePaths: skip zero-length or
key-degenerate fragments, otherwise add one undirected edge. -/
def buildLineGraph (lineFragments : List LineFrag) : List LineGraphNode × List LineGraphEdge :=
  lineFragments.foldl
    (fun acc line =>
      if qle (mathHypot (line.b.x - line.a.x) (line.b.y - line.a.y)) CLIP_EPSILON then acc
      else
        let aKey := quantizedPoint line.a
        let bKey := quantizedPoint line.b
        if aKey = bKey then acc
        else
          let edgeId := acc.2.length
          (nodeAddEdge (nodeAddEdge acc.1 aKey edgeId) bKey edgeId, acc.2 ++ [⟨aKey, bKey, false⟩]))
    ([], [])

def defaultEdge : LineGraphEdge := ⟨"", "", true⟩

/-- hasUnusedEdge (part_019). -/
def hasUnusedEdge (node : LineGraphNode) (edges : List LineGraphEdge) : Bool :=
  node.edgeIds.any fun edgeId => !(edges.getD edgeId defaultEdge).used

/-- unusedDegree (part_019). -/
def unusedDegree (node : LineGraphNode) (edges : List LineGraphEdge) : Nat :=
  node.edgeIds.foldl (fun count edgeId => if (edges.getD edgeId defaultEdge).used then count else count + 1) 0

def compressAux (prev : Pt) : List Pt → List Pt
  | [] => []
  | next :: rest =>
    if qlt CLIP_EPSILON (mathHypot (next.x - prev.x) (next.y - prev.y)) then
      next :: compressAux next rest
    else compressAux prev rest

/-- compressRepeatedPoints (part_019). -/
def compressRepeatedPoints (points : List Pt) : List Pt :=
  match points with
  | [] => []
  | p :: rest => p :: compressAux p rest

/-- The while-loop of consumeTrail; each pass marks one edge used, so the
fuel `edges.length + 1` supplied by `consumeTrail` is never exhausted. -/
def consumeTrailAux : Nat → String → List LineGraphNode → List LineGraphEdge →
    List String × List LineGraphEdge
  | 0, _, _, edges => ([], edges)
  | fuel + 1, currentKey, nodes, edges =>
    match nodes.find? fun n => n.key = currentKey with
    | none => ([], edges)
    | some node =>
      match node.edgeIds.find? fun edgeId => !(edges.getD edgeId defaultEdge).used with
      | none => ([], edges)
      | some edgeId =>
        let edge := edges.getD edgeId defaultEdge
        let edges2 := edges.set edgeId ⟨edge.a, edge.b, true⟩
        let nextKey := if edge.a = currentKey then edge.b else edge.a
        let (trail, edges3) := consumeTrailAux fuel nextKey nodes edges2
        (nextKey :: trail, edges3)

/-- consumeTrail (part_019): greedy walk over unused edges, returning the
visited key sequence and the updated edge flags. -/
def consumeTrail (startNodeKey : String) (nodes : List LineGraphNode)
    (edges : List LineGraphEdge) : List String × List LineGraphEdge :=
  let (rest, edges2) := consumeTrailAux (edges.length + 1) startNodeKey nodes edges
  (startNodeKey :: rest, edges2)

/-- The outer while-loop of buildJoinedLinePaths: pick an odd-degree start if
any, else any node with an unused edge, consume one trail, emit it.  Each
round with a start consumes at least one edge, so fuel `edges.length + 1`
is never exhausted. -/
def joinLoop : Nat → List LineGraphNode → List LineGraphEdge → String → Q → List LinePathFrag
  | 0, _, _, _, _ => []
  | fuel + 1, nodes, edges, color, strokeWidth =>
    let oddStart := nodes.find? fun node =>
      hasUnusedEdge node edges && unusedDegree node edges % 2 == 1
    let fallbackStart := nodes.find? fun node => hasUnusedEdge node edges
    match (match oddStart with | some n => some n | none => fallbackStart) with
    | none => []
    | some start =>
      let (walk, edges2) := consumeTrail start.key nodes edges
      if walk.length < 2 then joinLoop fuel nodes edges2 color strokeWidth
      else
        let points := compressRepeatedPoints
          (walk.filterMap fun nodeKey => (nodes.find? fun n => n.key = nodeKey).map (·.point))
        if points.length < 2 then joinLoop fuel nodes edges2 color strokeWidth
        else ⟨color, strokeWidth, points⟩ :: joinLoop fuel nodes edges2 color strokeWidth

/-- buildJoinedLinePaths (part_019). -/
def buildJoinedLinePaths (lineFragments : List LineFrag) : List LinePathFrag :=
  match lineFragments with
  | [] => []
  | first :: _ =>
    let (nodes, edges) := buildLineGraph lineFragments
    if edges.length = 0 then []
    else joinLoop (edges.length + 1) nodes edges first.color first.strokeWidth

/-- The bucket insertion of joinLineFragmentsForPlotter (a JavaScript Map of
style key to fragment array, insertion ordered). -/
def bucketAdd (m : List (String × List LineFrag)) (key : String) (f : LineFrag) :
    List (String × List LineFrag) :=
  match m with
  | [] => [(key, [f])]
  | (k, fs) :: rest =>
    if k = key then (k, fs ++ [f]) :: rest
    else (k, fs) :: bucketAdd rest key f

/-- joinLineFragmentsForPlotter (part_019): non-line fragments pass through
in order; line fragments are bucketed by style and joined; joined paths come
first, passthrough after. -/
def joinLineFragmentsForPlotter (fragments : List RenderFragment) : List OutputFragment :=
  let acc := fragments.foldl
    (fun (acc : List (String × List LineFrag) × List OutputFragment) fragment =>
      match fragment with
      | .line f => (bucketAdd acc.1 (styleBucketKey f.color f.strokeWidth) f, acc.2)
      | .circle f => (acc.1, acc.2 ++ [.circle f])
      | .arc f => (acc.1, acc.2 ++ [.arc f]))
    ([], [])
  (acc.1.flatMap fun bucket => (buildJoinedLinePaths bucket.2).map OutputFragment.linePath) ++ acc.2

def joinSep (sep : String) : List String → String
  | [] => ""
  | [s] => s
  | s :: rest => s ++ sep ++ joinSep sep rest

/-- linePathD (part_019); note the template leaves a trailing space when the
path has a single point. -/
def linePathD (points : List Pt) : String :=
  match points with
  | [] => "M   "
  | first :: rest =>
    "M " ++ ratToStr first.x ++ " " ++ ratToStr first.y ++ " " ++
      joinSep " " (rest.map fun p => "L " ++ ratToStr p.x ++ " " ++ ratToStr p.y)

/-- arcFragmentPathD (part_019). -/
def arcFragmentPathD (fragment : ArcFrag) : String :=
  "M " ++ ratToStr fragment.start.x ++ " " ++ ratToStr fragment.start.y ++ " A " ++
    ratToStr fragment.radius ++ " " ++ ratToStr fragment.radius ++ " 0 " ++
    (if fragment.largeArc then "1" else "0") ++ " " ++
    (if fragment.clockwise then "1" else "0") ++ " " ++
    ratToStr fragment.aend.x ++ " " ++ ratToStr fragment.aend.y

/-- fragmentSvg (part_019). -/
def fragmentSvg (fragment : OutputFragment) : String :=
  match fragment with
  | .linePath f =>
    "<path d=\"" ++ linePathD f.points ++ "\" stroke=\"" ++ f.color ++
      "\" stroke-width=\"" ++ ratToStr f.strokeWidth ++ "\" fill=\"none\" />"
  | .circle f =>
    "<circle cx=\"" ++ ratToStr f.center.x ++ "\" cy=\"" ++ ratToStr f.center.y ++
      "\" r=\"" ++ ratToStr f.radius ++ "\" stroke=\"" ++ f.color ++
      "\" stroke-width=\"" ++ ratToStr f.strokeWidth ++ "\" fill=\"none\" />"
  | .arc f =>
    "<path d=\"" ++ arcFragmentPathD f ++ "\" stroke=\"" ++ f.color ++
      "\" stroke-width=\"" ++ ratToStr f.strokeWidth ++ "\" fill=\"none\" />"

/-- getCellOffset (part_019). -/
def getCellOffset (tile : TileConfig) (col row : Nat) : Pt :=
  let (u, v) := tileBasisVectors tile
  ⟨qOfInt col * u.x + qOfInt row * v.x, qOfInt col * u.y + qOfInt row * v.y⟩

structure Bounds where
  minX : Q
  minY : Q
  width : Q
  height : Q

/-- Sentinel for the +-Infinity starting bounds (larger than any coordinate
reached by the embedding's inputs). -/
def INF : Q := ⟨10 ^ 40, 1⟩

/-- boundsForPoints (part_019). -/
def boundsForPoints (points : List Pt) (margin : Q) : Bounds :=
  let minX := points.foldl (fun acc p => mathMin acc p.x) INF
  let minY := points.foldl (fun acc p => mathMin acc p.y) INF
  let maxX := points.foldl (fun acc p => mathMax acc p.x) (-INF)
  let maxY := points.foldl (fun acc p => mathMax acc p.y) (-INF)
  { minX := minX - margin
    minY := minY - margin
    width := maxX - minX + margin * qOfInt 2
    height := maxY - minY + margin * qOfInt 2 }

/-- boundsForPattern (part_019): bounds of all translated tile polygons with
a 20 percent margin. -/
def boundsForPattern (tile : TileConfig) (options : ExportOptions) : Bounds :=
  let base := getTilePolygon tile
  let pts := (List.range options.pattern.rows).flatMap fun row =>
    (List.range options.pattern.columns).flatMap fun col =>
      translatePoints base (getCellOffset tile col row)
  let minX := pts.foldl (fun acc p => mathMin acc p.x) INF
  let minY := pts.foldl (fun acc p => mathMin acc p.y) INF
  let maxX := pts.foldl (fun acc p => mathMax acc p.x) (-INF)
  let maxY := pts.foldl (fun acc p => mathMax acc p.y) (-INF)
  boundsForPoints [⟨minX, minY⟩, ⟨maxX, maxY⟩] (tile.size * ⟨1, 5⟩)

/-- buildTiledSvg (part_019): clip every primitive (translated by each cell
offset plus each periodic neighbor offset) against each cell polygon,
deduplicate the fragments, join line fragments for the plotter, and emit a
self-contained SVG string with no clip constructs. -/
def buildTiledSvg (projectState : ProjectState) (options : ExportOptions) : String :=
  let tilePolygon := getTilePolygon projectState.tile
  let neighborOffsets := periodicNeighborOffsets projectState.tile
  let bounds := boundsForPattern projectState.tile options
  let renderedFragments := (List.range options.pattern.rows).flatMap fun row =>
    (List.range options.pattern.columns).flatMap fun col =>
      let cellOffset := getCellOffset projectState.tile col row
      let cellPolygon := translatePoints tilePolygon cellOffset
      let cellEdges := convexPolygonEdges cellPolygon
      projectState.primitives.flatMap fun primitive =>
        neighborOffsets.flatMap fun neighbor =>
          clipPrimitiveToConvexPolygon
            (translatePrimitive primitive ⟨cellOffset.x + neighbor.x, cellOffset.y + neighbor.y⟩)
            cellEdges
  let dedupedFragments := dedupeFragments renderedFragments
  let optimizedFragments := joinLineFragmentsForPlotter dedupedFragments
  let background :=
    match options.background with
    | some bg =>
      "<rect x=\"" ++ ratToStr bounds.minX ++ "\" y=\"" ++ ratToStr bounds.minY ++
        "\" width=\"" ++ ratToStr bounds.width ++ "\" height=\"" ++ ratToStr bounds.height ++
        "\" fill=\"" ++ bg ++ "\" />"
    | none => ""
  "<?xml version=\"1.0\" encoding=\"UTF-8\"?>\n<svg xmlns=\"http://www.w3.org/2000/svg\" viewBox=\"" ++
    ratToStr bounds.minX ++ " " ++ ratToStr bounds.minY ++ " " ++ ratToStr bounds.width ++ " " ++
    ratToStr bounds.height ++ "\">\n" ++ background ++ "\n" ++
    joinSep "" (optimizedFragments.map fragmentSvg) ++ "\n</svg>"

/-- Whether the character list starts with the pattern. -/
def listStarts : List Char → List Char → Bool
  | _, [] => true
  | [], _ :: _ => false
  | a :: as2, b :: bs => a = b && listStarts as2 bs

def countSub : List Char → List Char → Nat
  | [], _ => 0
  | l :: rest, pat => (if listStarts (l :: rest) pat then 1 else 0) + countSub rest pat

/-- Number of (possibly overlapping) occurrences of `pat` in `s`. -/
def strCount (s pat : String) : Nat := countSub s.data pat.data

/- ---------- well-formedness predicates and value helpers ---------- -/

/-- Two `Q` values differ as numbers (cross-multiplied inequality). -/
abbrev qNe (a b : Q) : Prop := a.num * (b.den : Int) ≠ b.num * (a.den : Int)

abbrev LineP.Wf (l : LineP) : Prop := l.a.Wf ∧ l.b.Wf

abbrev CircleP.Wf (c : CircleP) : Prop := c.center.Wf ∧ c.radius.Wf

abbrev ArcP.Wf (a : ArcP) : Prop := a.center.Wf ∧ a.start.Wf ∧ a.aend.Wf

/-- Well-formed primitive: every numeric field is a genuine (finite-double
style) fraction with positive denominator. -/
abbrev Primitive.Wf : Primitive → Prop
  | .line l => l.Wf
  | .circle c => c.Wf
  | .arc a => a.Wf

/-- The pair of rational values of a point (the semantics of a `Pt`). -/
def pointVal (p : Pt) : ℚ × ℚ := (qVal p.x, qVal p.y)

/-- `toFixed4` expressed as a function of the rational value alone. -/
def toFixed4Val (x : ℚ) : String :=
  let m := (⌊|x| * 10000 + 1 / 2⌋).toNat
  (if x < 0 then "-" else "") ++ natToStr (m / 10000) ++ "." ++ padZeros 4 (natToStr (m % 10000))

/-- `pointKey` expressed as a function of the point's value alone. -/
def pointKeyVal (v : ℚ × ℚ) : String := toFixed4Val v.1 ++ ":" ++ toFixed4Val v.2

/- ---------- concrete claim inputs ---------- -/

/-- C1 failing input: the arc of the repository's own export tests. -/
def c1Arc : ArcP :=
  ⟨"arc-1", ⟨⟨0, 1⟩, ⟨0, 1⟩⟩, ⟨⟨8, 1⟩, ⟨0, 1⟩⟩, ⟨⟨0, 1⟩, ⟨8, 1⟩⟩, true, false, "#111", none⟩

def c1Offset : Pt := ⟨⟨5, 1⟩, ⟨0, 1⟩⟩

/-- C2 input: a single line from (-20,0) to (20,0) in a square tile of size
50 (the spec's end-to-end scenario). -/
def c2Project : ProjectState :=
  ⟨⟨.square, ⟨50, 1⟩⟩,
   [.line ⟨"line-1", ⟨⟨-20, 1⟩, ⟨0, 1⟩⟩, ⟨⟨20, 1⟩, ⟨0, 1⟩⟩, "#111", none⟩]⟩

def c2Svg : String := buildTiledSvg c2Project ⟨⟨1, 1⟩, none⟩

/-- C3 failing input: the arc of the repository's snapping.test.ts
("includes arc handles and midpoint in snap targets"). -/
def c3Arc : ArcP :=
  ⟨"arc-1", ⟨⟨0, 1⟩, ⟨0, 1⟩⟩, ⟨⟨10, 1⟩, ⟨0, 1⟩⟩, ⟨⟨0, 1⟩, ⟨10, 1⟩⟩, true, false, "#111", none⟩

def c3Tile : TileConfig := ⟨.square, ⟨50, 1⟩⟩

/-- C4 counterexample input: stored start radius 1, stored end radius 5. -/
def c4Arc : ArcP :=
  ⟨"a", ⟨⟨0, 1⟩, ⟨0, 1⟩⟩, ⟨⟨1, 1⟩, ⟨0, 1⟩⟩, ⟨⟨0, 1⟩, ⟨5, 1⟩⟩, true, false, "#111", none⟩

/-- What the claim says `normalizeArc` does: project both endpoints onto the
circle of the larger stored radius (written from the spec sentence, for
comparison with the source's `normalizeArc`). -/
def specNormalizeArcMaxRadius (arc : ArcP) : ArcP :=
  let radius := mathMax (distance arc.center arc.start) (distance arc.center arc.aend)
  let start := projectPointToCircle arc.center radius arc.start
  let aend := projectPointToCircle arc.center radius arc.aend
  { arc with
    start := start
    aend := aend
    clockwise := isClockwiseMinorArc arc.center start aend }

/-- C4 witness input: start radius 3, end radius 4 (a 3-4-5 configuration
with both radii exact for `mathSqrt`). -/
def c4WitnessArc : ArcP :=
  ⟨"w", ⟨⟨0, 1⟩, ⟨0, 1⟩⟩, ⟨⟨3, 1⟩, ⟨0, 1⟩⟩, ⟨⟨0, 1⟩, ⟨4, 1⟩⟩, true, false, "#111", none⟩

/-- C5 concrete inputs: the two perpendicular diameters of length 40. -/
def c5Diam1 : Primitive := .line ⟨"l1", ⟨⟨-20, 1⟩, ⟨0, 1⟩⟩, ⟨⟨20, 1⟩, ⟨0, 1⟩⟩, "#111", none⟩

def c5Diam2 : Primitive := .line ⟨"l2", ⟨⟨0, 1⟩, ⟨-20, 1⟩⟩, ⟨⟨0, 1⟩, ⟨20, 1⟩⟩, "#111", none⟩

/-- C5 concrete inputs: diameter-length line through the radius-5 circle. -/
def c5Line5 : Primitive := .line ⟨"l5", ⟨⟨-5, 1⟩, ⟨0, 1⟩⟩, ⟨⟨5, 1⟩, ⟨0, 1⟩⟩, "#111", none⟩

def c5Circle5 : Primitive := .circle ⟨"c5", ⟨⟨0, 1⟩, ⟨0, 1⟩⟩, ⟨5, 1⟩, "#111", none⟩

/-- C5 counterexample: two equal circles of radius 10 + 1e-11 with centers
20 apart, crossing at two points about 2.8e-5 apart — closer than the
pointKey quantum, so both intersection points share one key and the
insertion-ordered dedup keeps a different survivor for each input order. -/
def c5NearA : Primitive :=
  .circle ⟨"cA", ⟨⟨0, 1⟩, ⟨10, 1⟩⟩, ⟨10 ^ 12 + 1, 10 ^ 11⟩, "#111", none⟩

def c5NearB : Primitive :=
  .circle ⟨"cB", ⟨⟨20, 1⟩, ⟨10, 1⟩⟩, ⟨10 ^ 12 + 1, 10 ^ 11⟩, "#111", none⟩

/-- C7 witness inputs: parallel lines, coincident circles, distant circles,
and strictly nested circles. -/
def c7ParA : LineP := ⟨"p1", ⟨⟨0, 1⟩, ⟨0, 1⟩⟩, ⟨⟨1, 1⟩, ⟨0, 1⟩⟩, "#111", none⟩

def c7ParB : LineP := ⟨"p2", ⟨⟨0, 1⟩, ⟨1, 1⟩⟩, ⟨⟨1, 1⟩, ⟨1, 1⟩⟩, "#111", none⟩

def c7CoinA : CircleP := ⟨"k1", ⟨⟨0, 1⟩, ⟨0, 1⟩⟩, ⟨1, 1⟩, "#111", none⟩

def c7CoinB : CircleP := ⟨"k2", ⟨⟨0, 1⟩, ⟨0, 1⟩⟩, ⟨2, 1⟩, "#111", none⟩

def c7FarA : CircleP := ⟨"f1", ⟨⟨0, 1⟩, ⟨0, 1⟩⟩, ⟨1, 1⟩, "#111", none⟩

def c7FarB : CircleP := ⟨"f2", ⟨⟨10, 1⟩, ⟨0, 1⟩⟩, ⟨1, 1⟩, "#111", none⟩

def c7InA : CircleP := ⟨"i1", ⟨⟨0, 1⟩, ⟨0, 1⟩⟩, ⟨10, 1⟩, "#111", none⟩

def c7InB : CircleP := ⟨"i2", ⟨⟨1, 1⟩, ⟨0, 1⟩⟩, ⟨1, 1⟩, "#111", none⟩

/-- The passthrough view of a render fragment: a circle or arc fragment is
forwarded unchanged, a plain line fragment is not forwarded at all. -/
def passOut : RenderFragment → Option OutputFragment
  | .line _ => none
  | .circle f => some (.circle f)
  | .arc f => some (.arc f)

/-- The point-reversed mirror of an arc render fragment: endpoints swapped
and direction flag negated, all other fields identical. -/
def c8Mirror (f : ArcFrag) : ArcFrag :=
  { f with start := f.aend, aend := f.start, clockwise := !f.clockwise }

/-- Points agreeing as rational values, both well-formed. -/
def PtValEq (p q : Pt) : Prop := p.Wf ∧ q.Wf ∧ pointVal p = pointVal q

/- ==================== theorems ==================== -/

set_option maxRecDepth 40000

theorem qle_of_qlt {a b : Q} (h : qlt a b = true) : qle a b = true := by
  simp only [qlt, decide_eq_true_eq] at h
  simp only [qle, decide_eq_true_eq]
  exact le_of_lt h

theorem intersections_pair (x y : Primitive) :
    intersections [x, y] = dedupPoints (pairIntersections x y) := by
  simp [intersections, orderedPairs]

theorem char_toNat_inj {a b : Char} (h : a.toNat = b.toNat) : a = b :=
  Char.ext (UInt32.ext h)

theorem lexLe_total (a : List Char) : ∀ b, lexLe a b = true ∨ lexLe b a = true := by
  induction a with
  | nil => intro b; exact .inl rfl
  | cons x xs ih =>
    intro b
    cases b with
    | nil => exact .inr rfl
    | cons y ys =>
      by_cases hxy : x = y
      · subst hxy
        simpa only [lexLe, if_pos rfl] using ih ys
      · have hne : x.toNat ≠ y.toNat := fun h => hxy (char_toNat_inj h)
        rcases Nat.lt_or_ge x.toNat y.toNat with h | h
        · left; simp [lexLe, hxy, h]
        · have h2 : y.toNat < x.toNat := lt_of_le_of_ne h (Ne.symm hne)
          right; simp [lexLe, Ne.symm hxy, h2]

theorem lexLe_antisymm (a : List Char) : ∀ b, lexLe a b = true → lexLe b a = true → a = b := by
  induction a with
  | nil =>
    intro b h1 h2
    cases b with
    | nil => rfl
    | cons y ys => exact absurd h2 (by simp [lexLe])
  | cons x xs ih =>
    intro b h1 h2
    cases b with
    | nil => exact absurd h1 (by simp [lexLe])
    | cons y ys =>
      by_cases hxy : x = y
      · subst hxy
        simp only [lexLe, if_pos rfl] at h1 h2
        rw [ih ys h1 h2]
      · exfalso
        simp only [lexLe, if_neg hxy, decide_eq_true_eq] at h1
        simp only [lexLe, if_neg (Ne.symm hxy), decide_eq_true_eq] at h2
        exact Nat.lt_asymm h1 h2

theorem strLe_antisymm {x y : String} (h1 : strLe x y = true) (h2 : strLe y x = true) : x = y := by
  cases x with
  | mk xd =>
    cases y with
    | mk yd =>
      simp only [strLe] at h1 h2
      exact congrArg String.mk (lexLe_antisymm xd yd h1 h2)

theorem strMin_comm (x y : String) :
    (if strLe x y then x else y) = (if strLe y x then y else x) := by
  by_cases h1 : strLe x y = true
  · by_cases h2 : strLe y x = true
    · rw [if_pos h1, if_pos h2]; exact strLe_antisymm h1 h2
    · rw [if_pos h1, if_neg h2]
  · by_cases h2 : strLe y x = true
    · rw [if_neg h1, if_pos h2]
    · rcases lexLe_total x.data y.data with h | h
      · exact absurd h h1
      · exact absurd h h2

/- ---------- Q value-semantics toolkit ---------- -/

theorem qden_pos {q : Q} (h : q.Wf) : (0 : ℚ) < (q.den : ℚ) := by exact_mod_cast h

theorem qden_ne {q : Q} (h : q.Wf) : (q.den : ℚ) ≠ 0 := ne_of_gt (qden_pos h)

theorem wf_add {a b : Q} (ha : a.Wf) (hb : b.Wf) : (a + b).Wf := Nat.mul_pos ha hb

theorem wf_sub {a b : Q} (ha : a.Wf) (hb : b.Wf) : (a - b).Wf := Nat.mul_pos ha hb

theorem wf_mul {a b : Q} (ha : a.Wf) (hb : b.Wf) : (a * b).Wf := Nat.mul_pos ha hb

theorem wf_neg {a : Q} (ha : a.Wf) : (-a).Wf := ha

theorem wf_div {a b : Q} (ha : a.Wf) : (a / b).Wf := by
  show (qDiv a b).Wf
  unfold qDiv
  by_cases h : b.num = 0
  · rw [if_pos h]; exact Nat.one_pos
  · rw [if_neg h]; exact Nat.mul_pos ha (Int.natAbs_pos.mpr h)

theorem wf_abs {a : Q} (ha : a.Wf) : (mathAbs a).Wf := ha

theorem wf_max {a b : Q} (ha : a.Wf) (hb : b.Wf) : (mathMax a b).Wf := by
  unfold mathMax; split <;> assumption

theorem wf_min {a b : Q} (ha : a.Wf) (hb : b.Wf) : (mathMin a b).Wf := by
  unfold mathMin; split <;> assumption

theorem wf_sqrt (q : Q) : (mathSqrt q).Wf := by
  unfold mathSqrt; split
  · exact Nat.one_pos
  · show 0 < SQRT_PREC; decide

theorem wf_hypot (x y : Q) : (mathHypot x y).Wf := wf_sqrt _

theorem wf_distance (a b : Pt) : (distance a b).Wf := wf_sqrt _

theorem wf_epsilon : EPSILON.Wf := by decide

theorem wf_zero : (0 : Q).Wf := Nat.one_pos

theorem wf_one : (1 : Q).Wf := Nat.one_pos

theorem wf_ofInt (n : Int) : (qOfInt n).Wf := Nat.one_pos

theorem qVal_add {a b : Q} (ha : a.Wf) (hb : b.Wf) : qVal (a + b) = qVal a + qVal b := by
  show qVal (qAdd a b) = _
  unfold qVal qAdd
  rw [div_add_div _ _ (qden_ne ha) (qden_ne hb)]
  push_cast
  ring_nf

theorem qVal_sub {a b : Q} (ha : a.Wf) (hb : b.Wf) : qVal (a - b) = qVal a - qVal b := by
  show qVal (qSub a b) = _
  unfold qVal qSub
  rw [div_sub_div _ _ (qden_ne ha) (qden_ne hb)]
  push_cast
  ring_nf

theorem qVal_mul (a b : Q) : qVal (a * b) = qVal a * qVal b := by
  show qVal (qMul a b) = _
  unfold qVal qMul
  push_cast
  rw [div_mul_div_comm]

theorem qVal_neg (a : Q) : qVal (-a) = -qVal a := by
  show qVal (qNeg a) = _
  unfold qVal qNeg
  push_cast
  rw [neg_div]

theorem qVal_abs (a : Q) : qVal (mathAbs a) = |qVal a| := by
  unfold qVal mathAbs
  rw [abs_div]
  congr 1
  · simp [Int.cast_natAbs]
  · rw [abs_of_nonneg (by positivity)]

theorem qVal_div {a b : Q} (ha : a.Wf) (hb : b.Wf) (hbn : b.num ≠ 0) :
    qVal (a / b) = qVal a / qVal b := by
  show qVal (qDiv a b) = _
  unfold qVal qDiv
  rw [if_neg hbn]
  rcases hbn.lt_or_lt with h | h
  · have hQ : (b.num : ℚ) < 0 := by exact_mod_cast h
    have hbq : (b.num : ℚ) ≠ 0 := ne_of_lt hQ
    rw [Int.sign_eq_neg_one_of_neg h]
    push_cast [Int.cast_natAbs]
    rw [abs_of_neg hQ]
    field_simp
  · have hQ : (0 : ℚ) < (b.num : ℚ) := by exact_mod_cast h
    have hbq : (b.num : ℚ) ≠ 0 := ne_of_gt hQ
    rw [Int.sign_eq_one_of_pos h]
    push_cast [Int.cast_natAbs]
    rw [abs_of_pos hQ]
    field_simp

theorem qle_iff {a b : Q} (ha : a.Wf) (hb : b.Wf) : qle a b = true ↔ qVal a ≤ qVal b := by
  unfold qle qVal
  rw [div_le_div_iff (qden_pos ha) (qden_pos hb)]
  simp only [decide_eq_true_eq]
  constructor <;> intro h <;> exact_mod_cast h

theorem qlt_iff {a b : Q} (ha : a.Wf) (hb : b.Wf) : qlt a b = true ↔ qVal a < qVal b := by
  unfold qlt qVal
  rw [div_lt_div_iff (qden_pos ha) (qden_pos hb)]
  simp only [decide_eq_true_eq]
  constructor <;> intro h <;> exact_mod_cast h

theorem bool_eq_of_iff {x y : Bool} (h : x = true ↔ y = true) : x = y := by
  cases x <;> cases y <;> simp_all

theorem qle_val_det {a b a2 b2 : Q} (ha : a.Wf) (hb : b.Wf) (ha2 : a2.Wf) (hb2 : b2.Wf)
    (h1 : qVal a = qVal a2) (h2 : qVal b = qVal b2) : qle a b = qle a2 b2 :=
  bool_eq_of_iff (by rw [qle_iff ha hb, qle_iff ha2 hb2, h1, h2])

theorem qlt_val_det {a b a2 b2 : Q} (ha : a.Wf) (hb : b.Wf) (ha2 : a2.Wf) (hb2 : b2.Wf)
    (h1 : qVal a = qVal a2) (h2 : qVal b = qVal b2) : qlt a b = qlt a2 b2 :=
  bool_eq_of_iff (by rw [qlt_iff ha hb, qlt_iff ha2 hb2, h1, h2])

theorem qnum_nonpos_iff {a : Q} (ha : a.Wf) : a.num ≤ 0 ↔ qVal a ≤ 0 := by
  unfold qVal
  rw [div_le_iff₀ (qden_pos ha), zero_mul]
  constructor <;> intro h <;> exact_mod_cast h

theorem qVal_eq_cross {a b : Q} (ha : a.Wf) (hb : b.Wf) :
    qVal a = qVal b ↔ a.num * (b.den : Int) = b.num * (a.den : Int) := by
  unfold qVal
  rw [div_eq_div_iff (qden_ne ha) (qden_ne hb)]
  constructor <;> intro h <;> exact_mod_cast h

theorem mathSqrt_val_det {a b : Q} (ha : a.Wf) (hb : b.Wf) (h : qVal a = qVal b) :
    mathSqrt a = mathSqrt b := by
  unfold mathSqrt
  have hsign : a.num ≤ 0 ↔ b.num ≤ 0 := by
    rw [qnum_nonpos_iff ha, qnum_nonpos_iff hb, h]
  by_cases hs : a.num ≤ 0
  · rw [if_pos hs, if_pos (hsign.mp hs)]
  · have hbs : ¬b.num ≤ 0 := fun hx => hs (hsign.mpr hx)
    rw [if_neg hs, if_neg hbs]
    have hap : 0 < a.num := lt_of_not_ge hs
    have hbp : 0 < b.num := lt_of_not_ge hbs
    have hcross : a.num * (b.den : Int) = b.num * (a.den : Int) := (qVal_eq_cross ha hb).mp h
    have hnat : a.num.toNat * b.den = b.num.toNat * a.den := by
      zify [Int.toNat_of_nonneg (le_of_lt hap), Int.toNat_of_nonneg (le_of_lt hbp)]
      exact_mod_cast hcross
    have e1 : a.num.toNat * (SQRT_PREC * SQRT_PREC) * b.den / (a.den * b.den) =
        a.num.toNat * (SQRT_PREC * SQRT_PREC) / a.den :=
      Nat.mul_div_mul_right _ _ hb
    have e2 : b.num.toNat * (SQRT_PREC * SQRT_PREC) * a.den / (b.den * a.den) =
        b.num.toNat * (SQRT_PREC * SQRT_PREC) / b.den :=
      Nat.mul_div_mul_right _ _ ha
    have e3 : a.num.toNat * (SQRT_PREC * SQRT_PREC) * b.den =
        b.num.toNat * (SQRT_PREC * SQRT_PREC) * a.den := by
      rw [mul_right_comm, hnat, mul_right_comm]
    have harg : a.num.toNat * (SQRT_PREC * SQRT_PREC) / a.den =
        b.num.toNat * (SQRT_PREC * SQRT_PREC) / b.den := by
      rw [← e1, e3, mul_comm a.den b.den, e2]
    rw [harg]

/- ---------- claim theorems (C1, C2, C3, C4, C6, C7, C8, C9, C10) ---------- -/

/-- C1 (against the claim; code_bug evidence): `translatePrimitive` on an arc
shifts only the `center` field and returns the stored `start` and `end`
points unchanged, so at the failing input (arc centered at the origin with
start (8,0) and end (0,8), offset (5,0)) the result keeps start (8,0)
instead of the claimed (13,0); the final conjunct records that the kept
start x-coordinate differs from the shifted one as a number. -/
theorem c1_translatePrimitive_arc_center_only :
    (∀ (a : ArcP) (offset : Pt),
      translatePrimitive (.arc a) offset =
        .arc { a with center := ⟨a.center.x + offset.x, a.center.y + offset.y⟩ }) ∧
    translatePrimitive (.arc c1Arc) c1Offset =
      .arc ⟨"arc-1", ⟨⟨5, 1⟩, ⟨0, 1⟩⟩, ⟨⟨8, 1⟩, ⟨0, 1⟩⟩, ⟨⟨0, 1⟩, ⟨8, 1⟩⟩, true, false, "#111", none⟩ ∧
    qNe (⟨8, 1⟩ : Q) ((⟨8, 1⟩ : Q) + c1Offset.x) :=
  ⟨fun a offset => rfl, by decide, by decide⟩

/-- C2: for a project with the single line (-20,0)-(20,0), a square tile of
size 50 and a 1x1 pattern, the tiled plotter SVG contains no `clipPath`
element and no `clip-path` attribute (no "clip" text at all), exactly one
`path` element and no `line` element, and that path's data is exactly the
unclipped line from (-20,0) to (20,0). -/
theorem c2_buildTiledSvg_plotter_line :
    strCount c2Svg "clipPath" = 0 ∧ strCount c2Svg "clip-path" = 0 ∧
    strCount c2Svg "clip" = 0 ∧
    strCount c2Svg "<path" = 1 ∧ strCount c2Svg "<line" = 0 ∧
    strCount c2Svg "d=\"M -20 0 L 20 0\"" = 1 := by decide

/-- C3 (against the claim; code_bug evidence): for the arc of the
repository's own snapping test (center (0,0), start (10,0), end (0,10)),
`gatherSnapPoints` under src returns only the arc center plus the square
tile's seed points — the arc's start, end and sweep midpoint are absent,
contradicting the claim and the repository's snapping.test.ts. -/
theorem c3_gatherSnapPoints_omits_arc_points :
    gatherSnapPoints [.arc c3Arc] c3Tile =
      [⟨⟨0, 1⟩, ⟨0, 1⟩⟩, ⟨⟨-50, 1⟩, ⟨-50, 1⟩⟩, ⟨⟨50, 1⟩, ⟨-50, 1⟩⟩, ⟨⟨50, 1⟩, ⟨50, 1⟩⟩,
       ⟨⟨-50, 1⟩, ⟨50, 1⟩⟩, ⟨⟨0, 2⟩, ⟨-100, 2⟩⟩, ⟨⟨100, 2⟩, ⟨0, 2⟩⟩, ⟨⟨0, 2⟩, ⟨100, 2⟩⟩,
       ⟨⟨-100, 2⟩, ⟨0, 2⟩⟩] ∧
    (⟨⟨10, 1⟩, ⟨0, 1⟩⟩ : Pt) ∉ gatherSnapPoints [.arc c3Arc] c3Tile ∧
    (⟨⟨0, 1⟩, ⟨10, 1⟩⟩ : Pt) ∉ gatherSnapPoints [.arc c3Arc] c3Tile := by decide

/-- C4 (counterexample): for the arc with stored start radius 1 and stored
end radius 5 (both above EPSILON), `normalizeArc` projects the end point
onto the circle of radius 1 — not radius max(1,5) = 5 as the claim states:
the produced end point differs in value from the spec-side max-radius
projection, and its distance from the center differs from the larger
radius. -/
theorem c4_normalizeArc_not_max_radius :
    qlt EPSILON (distance c4Arc.center c4Arc.start) = true ∧
    qlt EPSILON (distance c4Arc.center c4Arc.aend) = true ∧
    qNe (normalizeArc c4Arc).aend.y (specNormalizeArcMaxRadius c4Arc).aend.y ∧
    qNe (distance c4Arc.center (normalizeArc c4Arc).aend)
      (mathMax (distance c4Arc.center c4Arc.start) (distance c4Arc.center c4Arc.aend)) := by
  decide

/-- C4 (amended): when the stored start radius exceeds EPSILON (and the end
radius too, as the claim assumes), `normalizeArc` projects both endpoints
onto the circle whose radius is the START point's stored radius — not the
larger of the two — and recomputes `clockwise` as the minor-arc direction
of the projected points. -/
theorem c4_normalizeArc_start_radius (arc : ArcP)
    (h1 : qlt EPSILON (distance arc.center arc.start) = true)
    (h2 : qlt EPSILON (distance arc.center arc.aend) = true) :
    normalizeArc arc =
      { arc with
        start := projectPointToCircle arc.center (distance arc.center arc.start) arc.start
        aend := projectPointToCircle arc.center (distance arc.center arc.start) arc.aend
        clockwise := isClockwiseMinorArc arc.center
          (projectPointToCircle arc.center (distance arc.center arc.start) arc.start)
          (projectPointToCircle arc.center (distance arc.center arc.start) arc.aend) } := by
  simp only [normalizeArc, mathMax, h1, qle_of_qlt h1, if_true]

/-- C4 witness: the amended statement applied to a 3-4-5 arc. -/
theorem c4_normalizeArc_start_radius_witness :
    qlt EPSILON (distance c4WitnessArc.center c4WitnessArc.start) = true ∧
    qlt EPSILON (distance c4WitnessArc.center c4WitnessArc.aend) = true ∧
    normalizeArc c4WitnessArc =
      { c4WitnessArc with
        start := projectPointToCircle c4WitnessArc.center
          (distance c4WitnessArc.center c4WitnessArc.start) c4WitnessArc.start
        aend := projectPointToCircle c4WitnessArc.center
          (distance c4WitnessArc.center c4WitnessArc.start) c4WitnessArc.aend
        clockwise := isClockwiseMinorArc c4WitnessArc.center
          (projectPointToCircle c4WitnessArc.center
            (distance c4WitnessArc.center c4WitnessArc.start) c4WitnessArc.start)
          (projectPointToCircle c4WitnessArc.center
            (distance c4WitnessArc.center c4WitnessArc.start) c4WitnessArc.aend) } :=
  ⟨by decide, by decide, c4_normalizeArc_start_radius c4WitnessArc (by decide) (by decide)⟩

/-- C6: every arc-involving pair in `intersections` delegates to the
line-circle or circle-circle routine on the arc's full supporting circle
(`circleFromArc`) and filters the candidates with `isPointOnArcSweep` at
tolerance 1e-4 on the normalized arc (both arcs for arc-arc); the first
conjunct ties the pair dispatch to the public `intersections` function. -/
theorem c6_arc_intersections_sweep_filter :
    (∀ (x y : Primitive), intersections [x, y] = dedupPoints (pairIntersections x y)) ∧
    (∀ (l : LineP) (a : ArcP),
      pairIntersections (.line l) (.arc a) =
        (lineCircleIntersections l (circleFromArc a)).filter
          (fun p => isPointOnArcSweep p (normalizeArc a) ⟨1, 10000⟩) ∧
      pairIntersections (.arc a) (.line l) =
        (lineCircleIntersections l (circleFromArc a)).filter
          (fun p => isPointOnArcSweep p (normalizeArc a) ⟨1, 10000⟩)) ∧
    (∀ (c : CircleP) (a : ArcP),
      pairIntersections (.circle c) (.arc a) =
        (circleCircleIntersections c (circleFromArc a)).filter
          (fun p => isPointOnArcSweep p (normalizeArc a) ⟨1, 10000⟩) ∧
      pairIntersections (.arc a) (.circle c) =
        (circleCircleIntersections (circleFromArc a) c).filter
          (fun p => isPointOnArcSweep p (normalizeArc a) ⟨1, 10000⟩)) ∧
    (∀ (a b : ArcP),
      pairIntersections (.arc a) (.arc b) =
        (circleCircleIntersections (circleFromArc a) (circleFromArc b)).filter
          (fun p => isPointOnArcSweep p (normalizeArc a) ⟨1, 10000⟩ &&
            isPointOnArcSweep p (normalizeArc b) ⟨1, 10000⟩)) :=
  ⟨intersections_pair, fun _ _ => ⟨rfl, rfl⟩, fun _ _ => ⟨rfl, rfl⟩, fun _ _ => rfl⟩

/-- C7: degenerate geometry yields an empty intersection list rather than an
error: parallel lines (|cross| < EPSILON), coincident circle centers
(distance < EPSILON), circles too far apart (distance beyond the radius sum
plus EPSILON), and one circle strictly inside the other (distance below the
radius difference minus EPSILON) all produce no intersection points. -/
theorem c7_degenerate_intersections_empty :
    (∀ (l1 l2 : LineP),
      qlt (mathAbs (cross (subtract l1.b l1.a) (subtract l2.b l2.a))) EPSILON = true →
      intersections [.line l1, .line l2] = []) ∧
    (∀ (c1 c2 : CircleP),
      qlt (distance c1.center c2.center) EPSILON = true →
      intersections [.circle c1, .circle c2] = []) ∧
    (∀ (c1 c2 : CircleP),
      qlt (c1.radius + c2.radius + EPSILON) (distance c1.center c2.center) = true →
      intersections [.circle c1, .circle c2] = []) ∧
    (∀ (c1 c2 : CircleP),
      qlt (distance c1.center c2.center) (mathAbs (c1.radius - c2.radius) - EPSILON) = true →
      intersections [.circle c1, .circle c2] = []) := by
  refine ⟨?_, ?_, ?_, ?_⟩
  · intro l1 l2 h
    rw [intersections_pair]
    show dedupPoints (lineLineIntersectionSegment l1 l2) = []
    unfold lineLineIntersectionSegment
    rw [if_pos h]
    rfl
  · intro c1 c2 h
    rw [intersections_pair]
    show dedupPoints (circleCircleIntersections c1 c2) = []
    unfold circleCircleIntersections
    rw [if_pos h]
    rfl
  · intro c1 c2 h
    rw [intersections_pair]
    show dedupPoints (circleCircleIntersections c1 c2) = []
    unfold circleCircleIntersections
    by_cases h1 : qlt (distance c1.center c2.center) EPSILON = true
    · rw [if_pos h1]; rfl
    · rw [if_neg h1, if_pos h]; rfl
  · intro c1 c2 h
    rw [intersections_pair]
    show dedupPoints (circleCircleIntersections c1 c2) = []
    unfold circleCircleIntersections
    by_cases h1 : qlt (distance c1.center c2.center) EPSILON = true
    · rw [if_pos h1]; rfl
    · rw [if_neg h1]
      by_cases h2 : qlt (c1.radius + c2.radius + EPSILON) (distance c1.center c2.center) = true
      · rw [if_pos h2]; rfl
      · rw [if_neg h2, if_pos h]; rfl

/-- C7 witness: each degenerate configuration instantiated concretely. -/
theorem c7_degenerate_intersections_empty_witness :
    (qlt (mathAbs (cross (subtract c7ParA.b c7ParA.a) (subtract c7ParB.b c7ParB.a))) EPSILON = true ∧
      intersections [.line c7ParA, .line c7ParB] = []) ∧
    (qlt (distance c7CoinA.center c7CoinB.center) EPSILON = true ∧
      intersections [.circle c7CoinA, .circle c7CoinB] = []) ∧
    (qlt (c7FarA.radius + c7FarB.radius + EPSILON) (distance c7FarA.center c7FarB.center) = true ∧
      intersections [.circle c7FarA, .circle c7FarB] = []) ∧
    (qlt (distance c7InA.center c7InB.center)
        (mathAbs (c7InA.radius - c7InB.radius) - EPSILON) = true ∧
      intersections [.circle c7InA, .circle c7InB] = []) :=
  ⟨⟨by decide, c7_degenerate_intersections_empty.1 c7ParA c7ParB (by decide)⟩,
   ⟨by decide, c7_degenerate_intersections_empty.2.1 c7CoinA c7CoinB (by decide)⟩,
   ⟨by decide, c7_degenerate_intersections_empty.2.2.1 c7FarA c7FarB (by decide)⟩,
   ⟨by decide, c7_degenerate_intersections_empty.2.2.2 c7InA c7InB (by decide)⟩⟩

/-- C8: the dedupe key of an arc render fragment is invariant under the
point-reversed mirror (endpoints swapped, direction flag negated, all other
fields identical), so `dedupeFragments` keeps only one of any mirrored
pair. -/
theorem c8_dedupeKey_arc_mirror_invariant (f : ArcFrag) :
    dedupeKey (.arc f) = dedupeKey (.arc (c8Mirror f)) ∧
    dedupeFragments [.arc f, .arc (c8Mirror f)] = [.arc f] := by
  have hkey : dedupeKey (.arc f) = dedupeKey (.arc (c8Mirror f)) := by
    cases hcw : f.clockwise <;>
      simp only [dedupeKey, c8Mirror, hcw, Bool.not_true, Bool.not_false] <;>
      exact strMin_comm _ _
  refine ⟨hkey, ?_⟩
  simp [dedupeFragments, ← hkey]

/-- C9: the square tile of size 10 has exactly these 9 seed snap points, in
source order: the 4 polygon vertices, the 4 edge midpoints (0,-10), (10,0),
(0,10), (-10,0), and the origin. -/
theorem c9_square_seed_snap_points :
    (getSeedSnapPoints ⟨.square, ⟨10, 1⟩⟩).map pointVal =
      [(-10, -10), (10, -10), (10, 10), (-10, 10),
       (0, -10), (10, 0), (0, 10), (-10, 0), (0, 0)] := by
  have h : getSeedSnapPoints ⟨.square, ⟨10, 1⟩⟩ =
      [⟨⟨-10, 1⟩, ⟨-10, 1⟩⟩, ⟨⟨10, 1⟩, ⟨-10, 1⟩⟩, ⟨⟨10, 1⟩, ⟨10, 1⟩⟩, ⟨⟨-10, 1⟩, ⟨10, 1⟩⟩,
       ⟨⟨0, 2⟩, ⟨-20, 2⟩⟩, ⟨⟨20, 2⟩, ⟨0, 2⟩⟩, ⟨⟨0, 2⟩, ⟨20, 2⟩⟩, ⟨⟨-20, 2⟩, ⟨0, 2⟩⟩,
       ⟨⟨0, 1⟩, ⟨0, 1⟩⟩] := by decide
  rw [h]
  simp [pointVal, qVal]
  norm_num

/-- C10: `joinLineFragmentsForPlotter` emits some list of joined line-path
fragments followed by exactly the non-line input fragments, unchanged and
in input order (`passOut` forwards a circle or arc fragment with identical
fields and drops plain line fragments); in particular no plain line
fragment occurs in the output. -/
theorem c10_joinLineFragments_passthrough_frame (fragments : List RenderFragment) :
    ∃ paths : List LinePathFrag,
      joinLineFragmentsForPlotter fragments =
        paths.map OutputFragment.linePath ++ fragments.filterMap passOut := by
  have key : ∀ (l : List RenderFragment) (bk : List (String × List LineFrag))
      (pt : List OutputFragment),
      (List.foldl
        (fun (acc : List (String × List LineFrag) × List OutputFragment) fragment =>
          match fragment with
          | .line f => (bucketAdd acc.1 (styleBucketKey f.color f.strokeWidth) f, acc.2)
          | .circle f => (acc.1, acc.2 ++ [.circle f])
          | .arc f => (acc.1, acc.2 ++ [.arc f]))
        (bk, pt) l).2 = pt ++ l.filterMap passOut := by
    intro l
    induction l with
    | nil => intro bk pt; simp
    | cons x xs ih =>
      intro bk pt
      cases x with
      | line f =>
        simp only [List.foldl_cons, List.filterMap_cons]
        rw [ih]
        rfl
      | circle f =>
        simp only [List.foldl_cons, List.filterMap_cons]
        rw [ih]
        simp [passOut]
      | arc f =>
        simp only [List.foldl_cons, List.filterMap_cons]
        rw [ih]
        simp [passOut]
  refine ⟨((List.foldl
      (fun (acc : List (String × List LineFrag) × List OutputFragment) fragment =>
        match fragment with
        | .line f => (bucketAdd acc.1 (styleBucketKey f.color f.strokeWidth) f, acc.2)
        | .circle f => (acc.1, acc.2 ++ [.circle f])
        | .arc f => (acc.1, acc.2 ++ [.arc f]))
      (([], []) : List (String × List LineFrag) × List OutputFragment) fragments).1).flatMap
      (fun bucket => buildJoinedLinePaths bucket.2), ?_⟩
  show (_ : List OutputFragment) ++ _ = _
  rw [key fragments [] []]
  congr 1
  rw [List.map_flatMap]

theorem wf_subtract {a b : Pt} (ha : a.Wf) (hb : b.Wf) : (subtract a b).Wf :=
  ⟨wf_sub ha.1 hb.1, wf_sub ha.2 hb.2⟩

theorem wf_addPt {a b : Pt} (ha : a.Wf) (hb : b.Wf) : (add a b).Wf :=
  ⟨wf_add ha.1 hb.1, wf_add ha.2 hb.2⟩

theorem wf_scale {p : Pt} {v : Q} (hp : p.Wf) (hv : v.Wf) : (scale p v).Wf :=
  ⟨wf_mul hp.1 hv, wf_mul hp.2 hv⟩

theorem wf_cross {a b : Pt} (ha : a.Wf) (hb : b.Wf) : (cross a b).Wf :=
  wf_sub (wf_mul ha.1 hb.2) (wf_mul ha.2 hb.1)

theorem wf_dot {a b : Pt} (ha : a.Wf) (hb : b.Wf) : (dot a b).Wf :=
  wf_add (wf_mul ha.1 hb.1) (wf_mul ha.2 hb.2)

theorem qVal_cross {a b : Pt} (ha : a.Wf) (hb : b.Wf) :
    qVal (cross a b) = qVal a.x * qVal b.y - qVal a.y * qVal b.x := by
  show qVal (a.x * b.y - a.y * b.x) = _
  rw [qVal_sub (wf_mul ha.1 hb.2) (wf_mul ha.2 hb.1), qVal_mul, qVal_mul]

theorem qVal_dot {a b : Pt} (ha : a.Wf) (hb : b.Wf) :
    qVal (dot a b) = qVal a.x * qVal b.x + qVal a.y * qVal b.y := by
  show qVal (a.x * b.x + a.y * b.y) = _
  rw [qVal_add (wf_mul ha.1 hb.1) (wf_mul ha.2 hb.2), qVal_mul, qVal_mul]

theorem qVal_epsilon : qVal EPSILON = 1 / 1000000 := by
  unfold qVal EPSILON
  norm_num

theorem qlt_eq_false_iff {a b : Q} (ha : a.Wf) (hb : b.Wf) :
    qlt a b = false ↔ qVal b ≤ qVal a := by
  rw [← not_lt, ← qlt_iff ha hb, Bool.not_eq_true]

theorem qnum_ne_of_abs_not_lt_eps {x : Q} (hx : x.Wf)
    (h : ¬ qlt (mathAbs x) EPSILON = true) : x.num ≠ 0 ∧ qVal x ≠ 0 := by
  have h2 : qVal EPSILON ≤ qVal (mathAbs x) :=
    (qlt_eq_false_iff (wf_abs hx) wf_epsilon).mp (Bool.not_eq_true _ ▸ eq_false_of_ne_true h)
  rw [qVal_abs, qVal_epsilon] at h2
  have hv : qVal x ≠ 0 := by
    intro h0
    rw [h0] at h2
    norm_num at h2
  refine ⟨?_, hv⟩
  intro h0
  apply hv
  unfold qVal
  rw [h0]
  norm_num

theorem pointVal_ext {p q : Pt} (hx : qVal p.x = qVal q.x) (hy : qVal p.y = qVal q.y) :
    pointVal p = pointVal q := by
  unfold pointVal
  rw [hx, hy]

theorem qVal_sub_x {a b : Pt} (ha : a.Wf) (hb : b.Wf) :
    qVal (subtract a b).x = qVal a.x - qVal b.x := qVal_sub ha.1 hb.1

theorem qVal_sub_y {a b : Pt} (ha : a.Wf) (hb : b.Wf) :
    qVal (subtract a b).y = qVal a.y - qVal b.y := qVal_sub ha.2 hb.2

theorem or4_swap (b1 b2 b3 b4 : Bool) :
    (b3 || b4 || b1 || b2) = (b1 || b2 || b3 || b4) := by
  cases b1 <;> cases b2 <;> cases b3 <;> cases b4 <;> rfl

theorem lineLine_swap (la lb : LineP) (hla : la.Wf) (hlb : lb.Wf) :
    (lineLineIntersectionSegment lb la).map pointVal =
      (lineLineIntersectionSegment la lb).map pointVal := by
  unfold lineLineIntersectionSegment
  set R := subtract la.b la.a with hRdef
  set S := subtract lb.b lb.a with hSdef
  set M := subtract lb.a la.a with hMdef
  set M2 := subtract la.a lb.a with hM2def
  have hp : la.a.Wf := hla.1
  have hq : lb.a.Wf := hlb.1
  have hr : R.Wf := wf_subtract hla.2 hla.1
  have hs : S.Wf := wf_subtract hlb.2 hlb.1
  have hm : M.Wf := wf_subtract hlb.1 hla.1
  have hm2 : M2.Wf := wf_subtract hla.1 hlb.1
  have hrxs : (cross R S).Wf := wf_cross hr hs
  have hrxs2 : (cross S R).Wf := wf_cross hs hr
  have hvrxs2 : qVal (cross S R) = -qVal (cross R S) := by
    rw [qVal_cross hs hr, qVal_cross hr hs]; ring
  have hguard : qlt (mathAbs (cross S R)) EPSILON = qlt (mathAbs (cross R S)) EPSILON :=
    qlt_val_det (wf_abs hrxs2) wf_epsilon (wf_abs hrxs) wf_epsilon
      (by rw [qVal_abs, qVal_abs, hvrxs2, abs_neg]) rfl
  by_cases hg : qlt (mathAbs (cross R S)) EPSILON = true
  · rw [if_pos hg, if_pos (hguard.trans hg)]
  · have hg2 : ¬(qlt (mathAbs (cross S R)) EPSILON = true) := by rw [hguard]; exact hg
    rw [if_neg hg2, if_neg hg]
    obtain ⟨hnum, hvne⟩ := qnum_ne_of_abs_not_lt_eps hrxs hg
    obtain ⟨hnum2, hvne2⟩ := qnum_ne_of_abs_not_lt_eps hrxs2 hg2
    have hm2x : qVal M2.x = -qVal M.x := by
      rw [hM2def, hMdef, qVal_sub_x hla.1 hlb.1, qVal_sub_x hlb.1 hla.1]; ring
    have hm2y : qVal M2.y = -qVal M.y := by
      rw [hM2def, hMdef, qVal_sub_y hla.1 hlb.1, qVal_sub_y hlb.1 hla.1]; ring
    have hT : qVal (cross M2 R / cross S R) = qVal (cross M R / cross R S) := by
      rw [qVal_div (wf_cross hm2 hr) hrxs2 hnum2, qVal_div (wf_cross hm hr) hrxs hnum]
      rw [qVal_cross hm2 hr, qVal_cross hm hr, hvrxs2, hm2x, hm2y]
      have e : -qVal M.x * qVal R.y - -qVal M.y * qVal R.x =
          -(qVal M.x * qVal R.y - qVal M.y * qVal R.x) := by ring
      rw [e, neg_div_neg_eq]
    have hU : qVal (cross M2 S / cross S R) = qVal (cross M S / cross R S) := by
      rw [qVal_div (wf_cross hm2 hs) hrxs2 hnum2, qVal_div (wf_cross hm hs) hrxs hnum]
      rw [qVal_cross hm2 hs, qVal_cross hm hs, hvrxs2, hm2x, hm2y]
      have e : -qVal M.x * qVal S.y - -qVal M.y * qVal S.x =
          -(qVal M.x * qVal S.y - qVal M.y * qVal S.x) := by ring
      rw [e, neg_div_neg_eq]
    have wtAB : (cross M S / cross R S).Wf := wf_div (wf_cross hm hs)
    have wuAB : (cross M R / cross R S).Wf := wf_div (wf_cross hm hr)
    have wtBA : (cross M2 R / cross S R).Wf := wf_div (wf_cross hm2 hr)
    have wuBA : (cross M2 S / cross S R).Wf := wf_div (wf_cross hm2 hs)
    have wneps : (-EPSILON).Wf := wf_neg wf_epsilon
    have wone : (qOfInt 1 + EPSILON).Wf := wf_add (wf_ofInt 1) wf_epsilon
    have hc1 : qlt (cross M2 R / cross S R) (-EPSILON) =
        qlt (cross M R / cross R S) (-EPSILON) :=
      qlt_val_det wtBA wneps wuAB wneps hT rfl
    have hc2 : qlt (qOfInt 1 + EPSILON) (cross M2 R / cross S R) =
        qlt (qOfInt 1 + EPSILON) (cross M R / cross R S) :=
      qlt_val_det wone wtBA wone wuAB rfl hT
    have hc3 : qlt (cross M2 S / cross S R) (-EPSILON) =
        qlt (cross M S / cross R S) (-EPSILON) :=
      qlt_val_det wuBA wneps wtAB wneps hU rfl
    have hc4 : qlt (qOfInt 1 + EPSILON) (cross M2 S / cross S R) =
        qlt (qOfInt 1 + EPSILON) (cross M S / cross R S) :=
      qlt_val_det wone wuBA wone wtAB rfl hU
    have hcond : (qlt (cross M2 R / cross S R) (-EPSILON) ||
          qlt (qOfInt 1 + EPSILON) (cross M2 R / cross S R) ||
          qlt (cross M2 S / cross S R) (-EPSILON) ||
          qlt (qOfInt 1 + EPSILON) (cross M2 S / cross S R)) =
        (qlt (cross M S / cross R S) (-EPSILON) ||
          qlt (qOfInt 1 + EPSILON) (cross M S / cross R S) ||
          qlt (cross M R / cross R S) (-EPSILON) ||
          qlt (qOfInt 1 + EPSILON) (cross M R / cross R S)) := by
      rw [hc1, hc2, hc3, hc4]
      exact or4_swap _ _ _ _
    by_cases hcnd : (qlt (cross M S / cross R S) (-EPSILON) ||
        qlt (qOfInt 1 + EPSILON) (cross M S / cross R S) ||
        qlt (cross M R / cross R S) (-EPSILON) ||
        qlt (qOfInt 1 + EPSILON) (cross M R / cross R S)) = true
    · rw [if_pos hcnd, if_pos (hcond.trans hcnd)]
    · have hcnd2 : ¬((qlt (cross M2 R / cross S R) (-EPSILON) ||
          qlt (qOfInt 1 + EPSILON) (cross M2 R / cross S R) ||
          qlt (cross M2 S / cross S R) (-EPSILON) ||
          qlt (qOfInt 1 + EPSILON) (cross M2 S / cross S R)) = true) := by
        rw [hcond]; exact hcnd
      rw [if_neg hcnd2, if_neg hcnd]
      simp only [List.map]
      congr 1
      apply pointVal_ext
      · show qVal (lb.a.x + S.x * (cross M2 R / cross S R)) =
          qVal (la.a.x + R.x * (cross M S / cross R S))
        rw [qVal_add hq.1 (wf_mul hs.1 wtBA), qVal_mul,
          qVal_add hp.1 (wf_mul hr.1 wtAB), qVal_mul, hT]
        rw [qVal_div (wf_cross hm hr) hrxs hnum, qVal_div (wf_cross hm hs) hrxs hnum]
        rw [qVal_cross hm hr, qVal_cross hm hs, qVal_cross hr hs]
        rw [hMdef, qVal_sub_x hlb.1 hla.1, qVal_sub_y hlb.1 hla.1]
        have hv : qVal R.x * qVal S.y - qVal R.y * qVal S.x ≠ 0 := by
          have := hvne
          rwa [qVal_cross hr hs] at this
        field_simp
        ring
      · show qVal (lb.a.y + S.y * (cross M2 R / cross S R)) =
          qVal (la.a.y + R.y * (cross M S / cross R S))
        rw [qVal_add hq.2 (wf_mul hs.2 wtBA), qVal_mul,
          qVal_add hp.2 (wf_mul hr.2 wtAB), qVal_mul, hT]
        rw [qVal_div (wf_cross hm hr) hrxs hnum, qVal_div (wf_cross hm hs) hrxs hnum]
        rw [qVal_cross hm hr, qVal_cross hm hs, qVal_cross hr hs]
        rw [hMdef, qVal_sub_x hlb.1 hla.1, qVal_sub_y hlb.1 hla.1]
        have hv : qVal R.x * qVal S.y - qVal R.y * qVal S.x ≠ 0 := by
          have := hvne
          rwa [qVal_cross hr hs] at this
        field_simp
        ring

theorem qVal_zero : qVal (0 : Q) = 0 := by
  show ((0 : Int) : ℚ) / ((1 : Nat) : ℚ) = 0
  norm_num

theorem qVal_ofInt (n : Int) : qVal (qOfInt n) = (n : ℚ) := by
  unfold qVal qOfInt
  norm_num

theorem qAdd_comm (a b : Q) : a + b = b + a := by
  show qAdd a b = qAdd b a
  unfold qAdd
  simp only [Q.mk.injEq]
  exact ⟨by ring, by ring⟩

theorem mathAbs_qSub_comm (a b : Q) : mathAbs (a - b) = mathAbs (b - a) := by
  show mathAbs (qSub a b) = mathAbs (qSub b a)
  unfold qSub mathAbs
  simp only [Q.mk.injEq]
  constructor
  · have e : b.num * (a.den : Int) - a.num * (b.den : Int) =
        -(a.num * (b.den : Int) - b.num * (a.den : Int)) := by ring
    rw [e, Int.natAbs_neg]
  · ring

theorem distance_comm (a b : Pt) : distance a b = distance b a := by
  unfold distance mathHypot
  congr 1
  show qAdd (qMul (qSub a.x b.x) (qSub a.x b.x)) (qMul (qSub a.y b.y) (qSub a.y b.y)) =
    qAdd (qMul (qSub b.x a.x) (qSub b.x a.x)) (qMul (qSub b.y a.y) (qSub b.y a.y))
  unfold qAdd qMul qSub
  simp only [Q.mk.injEq]
  exact ⟨by ring, by ring⟩

theorem qVal_max {a b : Q} (ha : a.Wf) (hb : b.Wf) :
    qVal (mathMax a b) = max (qVal a) (qVal b) := by
  unfold mathMax
  by_cases h : qle a b = true
  · rw [if_pos h, max_eq_right ((qle_iff ha hb).mp h)]
  · rw [if_neg h]
    have h2 : ¬(qVal a ≤ qVal b) := fun hx => h ((qle_iff ha hb).mpr hx)
    rw [max_eq_left (le_of_not_le h2)]

theorem qnum_ne_of_val_ne {x : Q} (h : qVal x ≠ 0) : x.num ≠ 0 := by
  intro h0
  apply h
  unfold qVal
  rw [h0]
  norm_num

theorem qpos_of_not_lt_eps {x : Q} (hx : x.Wf) (h : ¬ qlt x EPSILON = true) :
    x.num ≠ 0 ∧ qVal x ≠ 0 := by
  have hf : qlt x EPSILON = false := by
    cases hq : qlt x EPSILON
    · rfl
    · exact absurd hq h
  have h2 : qVal EPSILON ≤ qVal x := (qlt_eq_false_iff hx wf_epsilon).mp hf
  rw [qVal_epsilon] at h2
  have hv : qVal x ≠ 0 := by
    intro h0
    rw [h0] at h2
    norm_num at h2
  exact ⟨qnum_ne_of_val_ne hv, hv⟩

theorem circleCircle_swap (ca cb : CircleP) (hca : ca.Wf) (hcb : cb.Wf) :
    List.Forall₂ PtValEq (circleCircleIntersections cb ca)
      ((circleCircleIntersections ca cb).reverse) := by
  simp only [circleCircleIntersections, distance_comm cb.center ca.center,
    qAdd_comm cb.radius ca.radius, mathAbs_qSub_comm cb.radius ca.radius]
  set d := distance ca.center cb.center with hddef
  have hd : d.Wf := wf_distance _ _
  have hra : ca.radius.Wf := hca.2
  have hrb : cb.radius.Wf := hcb.2
  by_cases g1 : qlt d EPSILON = true
  · rw [if_pos g1, if_pos g1]
    exact List.Forall₂.nil
  · rw [if_neg g1, if_neg g1]
    obtain ⟨hdnum, hdval⟩ := qpos_of_not_lt_eps hd g1
    by_cases g2 : qlt (ca.radius + cb.radius + EPSILON) d = true
    · rw [if_pos g2, if_pos g2]
      exact List.Forall₂.nil
    · rw [if_neg g2, if_neg g2]
      by_cases g3 : qlt d (mathAbs (ca.radius - cb.radius) - EPSILON) = true
      · rw [if_pos g3, if_pos g3]
        exact List.Forall₂.nil
      · rw [if_neg g3, if_neg g3]
        have h2num : (qOfInt 2 * d).num ≠ 0 := by
          show (2 : Int) * d.num ≠ 0
          exact mul_ne_zero two_ne_zero hdnum
        have hvd2 : qVal (qOfInt 2 * d) = 2 * qVal d := by
          rw [qVal_mul, qVal_ofInt]
          norm_num
        have wNA : (ca.radius * ca.radius - cb.radius * cb.radius + d * d).Wf :=
          wf_add (wf_sub (wf_mul hra hra) (wf_mul hrb hrb)) (wf_mul hd hd)
        have wNB : (cb.radius * cb.radius - ca.radius * ca.radius + d * d).Wf :=
          wf_add (wf_sub (wf_mul hrb hrb) (wf_mul hra hra)) (wf_mul hd hd)
        have w2d : (qOfInt 2 * d).Wf := wf_mul (wf_ofInt 2) hd
        have wp2A : ((ca.radius * ca.radius - cb.radius * cb.radius + d * d) / (qOfInt 2 * d)).Wf :=
          wf_div wNA
        have wp2B : ((cb.radius * cb.radius - ca.radius * ca.radius + d * d) / (qOfInt 2 * d)).Wf :=
          wf_div wNB
        have hvp2A : qVal ((ca.radius * ca.radius - cb.radius * cb.radius + d * d) / (qOfInt 2 * d)) =
            (qVal ca.radius * qVal ca.radius - qVal cb.radius * qVal cb.radius +
              qVal d * qVal d) / (2 * qVal d) := by
          rw [qVal_div wNA w2d h2num, hvd2,
            qVal_add (wf_sub (wf_mul hra hra) (wf_mul hrb hrb)) (wf_mul hd hd),
            qVal_sub (wf_mul hra hra) (wf_mul hrb hrb), qVal_mul, qVal_mul, qVal_mul]
        have hvp2B : qVal ((cb.radius * cb.radius - ca.radius * ca.radius + d * d) / (qOfInt 2 * d)) =
            (qVal cb.radius * qVal cb.radius - qVal ca.radius * qVal ca.radius +
              qVal d * qVal d) / (2 * qVal d) := by
          rw [qVal_div wNB w2d h2num, hvd2,
            qVal_add (wf_sub (wf_mul hrb hrb) (wf_mul hra hra)) (wf_mul hd hd),
            qVal_sub (wf_mul hrb hrb) (wf_mul hra hra), qVal_mul, qVal_mul, qVal_mul]
        set p2A := (ca.radius * ca.radius - cb.radius * cb.radius + d * d) / (qOfInt 2 * d) with hp2Adef
        set p2B := (cb.radius * cb.radius - ca.radius * ca.radius + d * d) / (qOfInt 2 * d) with hp2Bdef
        have wh2A : (ca.radius * ca.radius - p2A * p2A).Wf :=
          wf_sub (wf_mul hra hra) (wf_mul wp2A wp2A)
        have wh2B : (cb.radius * cb.radius - p2B * p2B).Wf :=
          wf_sub (wf_mul hrb hrb) (wf_mul wp2B wp2B)
        have hKey : qVal (cb.radius * cb.radius - p2B * p2B) =
            qVal (ca.radius * ca.radius - p2A * p2A) := by
          rw [qVal_sub (wf_mul hrb hrb) (wf_mul wp2B wp2B),
            qVal_sub (wf_mul hra hra) (wf_mul wp2A wp2A),
            qVal_mul, qVal_mul, qVal_mul, qVal_mul, hvp2A, hvp2B]
          field_simp
          ring
        have g4eq : qlt (cb.radius * cb.radius - p2B * p2B) (-EPSILON) =
            qlt (ca.radius * ca.radius - p2A * p2A) (-EPSILON) :=
          qlt_val_det wh2B (wf_neg wf_epsilon) wh2A (wf_neg wf_epsilon) hKey rfl
        by_cases g4 : qlt (ca.radius * ca.radius - p2A * p2A) (-EPSILON) = true
        · rw [if_pos g4, if_pos (g4eq.trans g4)]
          exact List.Forall₂.nil
        · have g4b : ¬(qlt (cb.radius * cb.radius - p2B * p2B) (-EPSILON) = true) := by
            rw [g4eq]; exact g4
          rw [if_neg g4, if_neg g4b]
          have hsqrt : mathSqrt (mathMax 0 (cb.radius * cb.radius - p2B * p2B)) =
              mathSqrt (mathMax 0 (ca.radius * ca.radius - p2A * p2A)) :=
            mathSqrt_val_det (wf_max wf_zero wh2B) (wf_max wf_zero wh2A)
              (by rw [qVal_max wf_zero wh2B, qVal_max wf_zero wh2A, hKey])
          rw [hsqrt]
          set hQ := mathSqrt (mathMax 0 (ca.radius * ca.radius - p2A * p2A)) with hhQdef
          have whQ : hQ.Wf := wf_sqrt _
          have wCax : ca.center.x.Wf := hca.1.1
          have wCay : ca.center.y.Wf := hca.1.2
          have wCbx : cb.center.x.Wf := hcb.1.1
          have wCby : cb.center.y.Wf := hcb.1.2
          have wvAx : ((cb.center.x - ca.center.x) / d).Wf := wf_div (wf_sub wCbx wCax)
          have wvAy : ((cb.center.y - ca.center.y) / d).Wf := wf_div (wf_sub wCby wCay)
          have wvBx : ((ca.center.x - cb.center.x) / d).Wf := wf_div (wf_sub wCax wCbx)
          have wvBy : ((ca.center.y - cb.center.y) / d).Wf := wf_div (wf_sub wCay wCby)
          have hvvAx : qVal ((cb.center.x - ca.center.x) / d) =
              (qVal cb.center.x - qVal ca.center.x) / qVal d := by
            rw [qVal_div (wf_sub wCbx wCax) hd hdnum, qVal_sub wCbx wCax]
          have hvvAy : qVal ((cb.center.y - ca.center.y) / d) =
              (qVal cb.center.y - qVal ca.center.y) / qVal d := by
            rw [qVal_div (wf_sub wCby wCay) hd hdnum, qVal_sub wCby wCay]
          have hvvBx : qVal ((ca.center.x - cb.center.x) / d) =
              (qVal ca.center.x - qVal cb.center.x) / qVal d := by
            rw [qVal_div (wf_sub wCax wCbx) hd hdnum, qVal_sub wCax wCbx]
          have hvvBy : qVal ((ca.center.y - cb.center.y) / d) =
              (qVal ca.center.y - qVal cb.center.y) / qVal d := by
            rw [qVal_div (wf_sub wCay wCby) hd hdnum, qVal_sub wCay wCby]
          have hbx : qVal (cb.center.x + p2B * ((ca.center.x - cb.center.x) / d)) =
              qVal (ca.center.x + p2A * ((cb.center.x - ca.center.x) / d)) := by
            rw [qVal_add wCbx (wf_mul wp2B wvBx), qVal_mul,
              qVal_add wCax (wf_mul wp2A wvAx), qVal_mul,
              hvvBx, hvvAx, hvp2A, hvp2B]
            field_simp
            ring
          have hby : qVal (cb.center.y + p2B * ((ca.center.y - cb.center.y) / d)) =
              qVal (ca.center.y + p2A * ((cb.center.y - ca.center.y) / d)) := by
            rw [qVal_add wCby (wf_mul wp2B wvBy), qVal_mul,
              qVal_add wCay (wf_mul wp2A wvAy), qVal_mul,
              hvvBy, hvvAy, hvp2A, hvp2B]
            field_simp
            ring
          have wbaseAx : (ca.center.x + p2A * ((cb.center.x - ca.center.x) / d)).Wf :=
            wf_add wCax (wf_mul wp2A wvAx)
          have wbaseAy : (ca.center.y + p2A * ((cb.center.y - ca.center.y) / d)).Wf :=
            wf_add wCay (wf_mul wp2A wvAy)
          have wbaseBx : (cb.center.x + p2B * ((ca.center.x - cb.center.x) / d)).Wf :=
            wf_add wCbx (wf_mul wp2B wvBx)
          have wbaseBy : (cb.center.y + p2B * ((ca.center.y - cb.center.y) / d)).Wf :=
            wf_add wCby (wf_mul wp2B wvBy)
          by_cases g5 : qlt hQ EPSILON = true
          · rw [if_pos g5, if_pos g5]
            simp only [List.reverse_cons, List.reverse_nil, List.nil_append]
            exact List.Forall₂.cons ⟨⟨wbaseBx, wbaseBy⟩, ⟨wbaseAx, wbaseAy⟩,
              pointVal_ext hbx hby⟩ List.Forall₂.nil
          · rw [if_neg g5, if_neg g5]
            simp only [List.reverse_cons, List.reverse_nil, List.nil_append,
              List.cons_append]
            refine List.Forall₂.cons ?_ (List.Forall₂.cons ?_ List.Forall₂.nil)
            · refine ⟨⟨wf_add wbaseBx (wf_mul (wf_neg wvBy) whQ),
                wf_add wbaseBy (wf_mul wvBx whQ)⟩,
                ⟨wf_sub wbaseAx (wf_mul (wf_neg wvAy) whQ),
                wf_sub wbaseAy (wf_mul wvAx whQ)⟩, ?_⟩
              apply pointVal_ext
              · rw [show (cb.center.x + p2B * ((ca.center.x - cb.center.x) / d) +
                    -((ca.center.y - cb.center.y) / d) * hQ) =
                    (cb.center.x + p2B * ((ca.center.x - cb.center.x) / d)) +
                    -((ca.center.y - cb.center.y) / d) * hQ from rfl]
                rw [qVal_add wbaseBx (wf_mul (wf_neg wvBy) whQ), qVal_mul, qVal_neg,
                  qVal_sub wbaseAx (wf_mul (wf_neg wvAy) whQ), qVal_mul, qVal_neg,
                  hbx, hvvBy, hvvAy]
                ring
              · rw [qVal_add wbaseBy (wf_mul wvBx whQ), qVal_mul,
                  qVal_sub wbaseAy (wf_mul wvAx whQ), qVal_mul,
                  hby, hvvBx, hvvAx]
                ring
            · refine ⟨⟨wf_sub wbaseBx (wf_mul (wf_neg wvBy) whQ),
                wf_sub wbaseBy (wf_mul wvBx whQ)⟩,
                ⟨wf_add wbaseAx (wf_mul (wf_neg wvAy) whQ),
                wf_add wbaseAy (wf_mul wvAx whQ)⟩, ?_⟩
              apply pointVal_ext
              · rw [qVal_sub wbaseBx (wf_mul (wf_neg wvBy) whQ), qVal_mul, qVal_neg,
                  qVal_add wbaseAx (wf_mul (wf_neg wvAy) whQ), qVal_mul, qVal_neg,
                  hbx, hvvBy, hvvAy]
                ring
              · rw [qVal_sub wbaseBy (wf_mul wvBx whQ), qVal_mul,
                  qVal_add wbaseAy (wf_mul wvAx whQ), qVal_mul,
                  hby, hvvBx, hvvAx]
                ring

theorem qnum_eq_zero_iff {a : Q} (ha : a.Wf) : a.num = 0 ↔ qVal a = 0 := by
  unfold qVal
  rw [div_eq_zero_iff]
  simp [qden_ne ha]

theorem qnum_neg_iff {a : Q} (ha : a.Wf) : a.num < 0 ↔ qVal a < 0 := by
  unfold qVal
  rw [div_lt_iff (qden_pos ha), zero_mul]
  constructor <;> intro h <;> exact_mod_cast h

theorem wf_atan2 {y x : Q} (hx : x.Wf) : (atan2Q y x).Wf := by
  simp only [atan2Q]
  by_cases h1 : (mathAbs x + mathAbs y).num = 0
  · rw [if_pos h1]; exact Nat.one_pos
  · rw [if_neg h1]
    by_cases h2 : qle ⟨0, 1⟩ y = true
    · rw [if_pos h2]; exact wf_sub (wf_ofInt 1) (wf_div hx)
    · rw [if_neg h2]; exact wf_add (wf_ofInt 3) (wf_div hx)

theorem atan2_val_det {y x y2 x2 : Q} (hy : y.Wf) (hx : x.Wf) (hy2 : y2.Wf) (hx2 : x2.Wf)
    (ey : qVal y = qVal y2) (ex : qVal x = qVal x2) :
    qVal (atan2Q y x) = qVal (atan2Q y2 x2) := by
  simp only [atan2Q]
  have hs : (mathAbs x + mathAbs y).Wf := wf_add (wf_abs hx) (wf_abs hy)
  have hs2 : (mathAbs x2 + mathAbs y2).Wf := wf_add (wf_abs hx2) (wf_abs hy2)
  have hsval : qVal (mathAbs x + mathAbs y) = qVal (mathAbs x2 + mathAbs y2) := by
    rw [qVal_add (wf_abs hx) (wf_abs hy), qVal_add (wf_abs hx2) (wf_abs hy2),
      qVal_abs, qVal_abs, qVal_abs, qVal_abs, ex, ey]
  by_cases h0 : (mathAbs x + mathAbs y).num = 0
  · have h02 : (mathAbs x2 + mathAbs y2).num = 0 :=
      (qnum_eq_zero_iff hs2).mpr (hsval ▸ (qnum_eq_zero_iff hs).mp h0)
    rw [if_pos h0, if_pos h02]
  · have h02 : ¬(mathAbs x2 + mathAbs y2).num = 0 := fun hh =>
      h0 ((qnum_eq_zero_iff hs).mpr (hsval.symm ▸ (qnum_eq_zero_iff hs2).mp hh))
    rw [if_neg h0, if_neg h02]
    have hqy : qle ⟨0, 1⟩ y = qle ⟨0, 1⟩ y2 :=
      qle_val_det Nat.one_pos hy Nat.one_pos hy2 rfl ey
    by_cases hy0 : qle ⟨0, 1⟩ y = true
    · rw [if_pos hy0, if_pos (hqy ▸ hy0)]
      rw [qVal_sub (wf_ofInt 1) (wf_div hx), qVal_sub (wf_ofInt 1) (wf_div hx2),
        qVal_div hx hs h0, qVal_div hx2 hs2 h02, ex, hsval]
    · have hy02 : ¬ qle ⟨0, 1⟩ y2 = true := fun hh => hy0 (hqy ▸ hh)
      rw [if_neg hy0, if_neg hy02]
      rw [qVal_add (wf_ofInt 3) (wf_div hx), qVal_add (wf_ofInt 3) (wf_div hx2),
        qVal_div hx hs h0, qVal_div hx2 hs2 h02, ex, hsval]

theorem wf_normalizeAngle {a : Q} (ha : a.Wf) : (normalizeAngle a).Wf :=
  wf_sub ha (wf_ofInt _)

theorem normalizeAngle_val {a : Q} (ha : a.Wf) :
    qVal (normalizeAngle a) = qVal a - 4 * ⌊qVal a / 4⌋ := by
  unfold normalizeAngle
  rw [qVal_sub ha (wf_ofInt _), qVal_ofInt]
  have h4 : (0 : ℤ) ≤ 4 * (a.den : ℤ) := by positivity
  have hfd : Int.fdiv a.num (4 * (a.den : ℤ)) = a.num / (4 * (a.den : ℤ)) :=
    Int.fdiv_eq_ediv _ h4
  have hdd : qVal a / 4 = (a.num : ℚ) / (((4 * a.den : ℕ)) : ℚ) := by
    unfold qVal
    push_cast
    rw [div_div, mul_comm]
  have hcd : ((4 * a.den : ℕ) : ℤ) = 4 * (a.den : ℤ) := by push_cast; ring
  have hfl : ⌊qVal a / 4⌋ = a.num / (4 * (a.den : ℤ)) := by
    rw [hdd, Rat.floor_intCast_div_natCast, hcd]
  rw [hfd, ← hfl]
  push_cast
  ring

theorem normalizeAngle_val_det {a b : Q} (ha : a.Wf) (hb : b.Wf) (h : qVal a = qVal b) :
    qVal (normalizeAngle a) = qVal (normalizeAngle b) := by
  rw [normalizeAngle_val ha, normalizeAngle_val hb, h]

theorem sweepDelta_true (s e : Q) : sweepDelta s e true = normalizeAngle (e - s) := rfl

theorem sweepDelta_false (s e : Q) : sweepDelta s e false = normalizeAngle (s - e) := rfl

theorem wf_sweepDelta {s e : Q} (hs : s.Wf) (he : e.Wf) (cw : Bool) :
    (sweepDelta s e cw).Wf := by
  cases cw
  · rw [sweepDelta_false]; exact wf_normalizeAngle (wf_sub hs he)
  · rw [sweepDelta_true]; exact wf_normalizeAngle (wf_sub he hs)

theorem sweepDelta_val_det {s e s2 e2 : Q} (hs : s.Wf) (he : e.Wf) (hs2 : s2.Wf)
    (he2 : e2.Wf) (es : qVal s = qVal s2) (ee : qVal e = qVal e2) (cw : Bool) :
    qVal (sweepDelta s e cw) = qVal (sweepDelta s2 e2 cw) := by
  cases cw
  · rw [sweepDelta_false, sweepDelta_false]
    exact normalizeAngle_val_det (wf_sub hs he) (wf_sub hs2 he2)
      (by rw [qVal_sub hs he, qVal_sub hs2 he2, es, ee])
  · rw [sweepDelta_true, sweepDelta_true]
    exact normalizeAngle_val_det (wf_sub he hs) (wf_sub he2 hs2)
      (by rw [qVal_sub he hs, qVal_sub he2 hs2, es, ee])

theorem wf_angleFromCenter {c p : Pt} (hc : c.Wf) (hp : p.Wf) :
    (angleFromCenter c p).Wf := wf_atan2 (wf_sub hp.1 hc.1)

theorem wf_projectPointToCircle {center : Pt} {radius : Q} {point : Pt}
    (hc : center.Wf) (hr : radius.Wf) (hp : point.Wf) :
    (projectPointToCircle center radius point).Wf := by
  simp only [projectPointToCircle]
  by_cases h1 : qlt radius EPSILON = true
  · rw [if_pos h1]; exact hc
  · rw [if_neg h1]
    by_cases h2 : qlt (mathHypot (point.x - center.x) (point.y - center.y)) EPSILON = true
    · rw [if_pos h2]; exact ⟨wf_add hc.1 hr, hc.2⟩
    · rw [if_neg h2]
      exact ⟨wf_add hc.1 (wf_mul (wf_sub hp.1 hc.1) (wf_div hr)),
        wf_add hc.2 (wf_mul (wf_sub hp.2 hc.2) (wf_div hr))⟩

theorem wf_normalizeArc {arc : ArcP} (h : arc.Wf) : (normalizeArc arc).Wf := by
  have hrad : (mathMax EPSILON
      (if qlt EPSILON (distance arc.center arc.start) = true then
        distance arc.center arc.start else distance arc.center arc.aend)).Wf :=
    wf_max wf_epsilon (by split <;> exact wf_sqrt _)
  exact ⟨h.1, wf_projectPointToCircle h.1 hrad h.2.1, wf_projectPointToCircle h.1 hrad h.2.2⟩

theorem wf_circleFromArc {arc : ArcP} (h : arc.Wf) : (circleFromArc arc).Wf :=
  ⟨(wf_normalizeArc h).1, wf_sqrt _⟩

theorem wf_resolve_startAngle {arc : ArcP} (h : arc.Wf) :
    (resolveArcSweep arc).startAngle.Wf := wf_angleFromCenter h.1 h.2.1

theorem wf_resolve_delta {arc : ArcP} (h : arc.Wf) : (resolveArcSweep arc).delta.Wf := by
  have h1 : (resolveArcSweep arc).delta =
      (if arc.largeArc = true then
        TAU - sweepDelta (angleFromCenter arc.center arc.start)
          (angleFromCenter arc.center arc.aend)
          (isClockwiseMinorArc arc.center arc.start arc.aend)
      else
        sweepDelta (angleFromCenter arc.center arc.start)
          (angleFromCenter arc.center arc.aend)
          (isClockwiseMinorArc arc.center arc.start arc.aend)) := rfl
  rw [h1]
  split
  · exact wf_sub Nat.one_pos
      (wf_sweepDelta (wf_angleFromCenter h.1 h.2.1) (wf_angleFromCenter h.1 h.2.2) _)
  · exact wf_sweepDelta (wf_angleFromCenter h.1 h.2.1) (wf_angleFromCenter h.1 h.2.2) _

theorem isPointOnArcSweep_val_det {p q : Pt} {arc : ArcP} (harc : arc.Wf)
    {eps : Q} (heps : eps.Wf) (hp : p.Wf) (hq : q.Wf) (hpq : pointVal p = pointVal q) :
    isPointOnArcSweep p arc eps = isPointOnArcSweep q arc eps := by
  have hpx : qVal p.x = qVal q.x := congrArg Prod.fst hpq
  have hpy : qVal p.y = qVal q.y := congrArg Prod.snd hpq
  have hn : (normalizeArc arc).Wf := wf_normalizeArc harc
  have hSA : (resolveArcSweep (normalizeArc arc)).startAngle.Wf := wf_resolve_startAngle hn
  have hD : (resolveArcSweep (normalizeArc arc)).delta.Wf := wf_resolve_delta hn
  have hPA : (angleFromCenter (normalizeArc arc).center p).Wf := wf_angleFromCenter hn.1 hp
  have hQA : (angleFromCenter (normalizeArc arc).center q).Wf := wf_angleFromCenter hn.1 hq
  have hAval : qVal (angleFromCenter (normalizeArc arc).center p) =
      qVal (angleFromCenter (normalizeArc arc).center q) := by
    simp only [angleFromCenter]
    exact atan2_val_det (wf_sub hp.2 hn.1.2) (wf_sub hp.1 hn.1.1)
      (wf_sub hq.2 hn.1.2) (wf_sub hq.1 hn.1.1)
      (by rw [qVal_sub hp.2 hn.1.2, qVal_sub hq.2 hn.1.2, hpy])
      (by rw [qVal_sub hp.1 hn.1.1, qVal_sub hq.1 hn.1.1, hpx])
  have hTp : (sweepDelta (resolveArcSweep (normalizeArc arc)).startAngle
      (angleFromCenter (normalizeArc arc).center p)
      (resolveArcSweep (normalizeArc arc)).clockwise).Wf := wf_sweepDelta hSA hPA _
  have hTq : (sweepDelta (resolveArcSweep (normalizeArc arc)).startAngle
      (angleFromCenter (normalizeArc arc).center q)
      (resolveArcSweep (normalizeArc arc)).clockwise).Wf := wf_sweepDelta hSA hQA _
  have hTval : qVal (sweepDelta (resolveArcSweep (normalizeArc arc)).startAngle
      (angleFromCenter (normalizeArc arc).center p)
      (resolveArcSweep (normalizeArc arc)).clockwise) =
      qVal (sweepDelta (resolveArcSweep (normalizeArc arc)).startAngle
      (angleFromCenter (normalizeArc arc).center q)
      (resolveArcSweep (normalizeArc arc)).clockwise) :=
    sweepDelta_val_det hSA hPA hSA hQA rfl hAval _
  simp only [isPointOnArcSweep]
  rw [qle_val_det (wf_neg heps) hTp (wf_neg heps) hTq rfl hTval,
    qle_val_det hTp (wf_add hD heps) hTq (wf_add hD heps) hTval rfl]

theorem lineLine_mem_wf (la lb : LineP) (hla : la.Wf) (hlb : lb.Wf) :
    ∀ p ∈ lineLineIntersectionSegment la lb, p.Wf := by
  intro p hp
  simp only [lineLineIntersectionSegment] at hp
  split at hp
  · simp at hp
  · split at hp
    · simp at hp
    · simp only [List.mem_singleton] at hp
      subst hp
      exact wf_addPt hla.1 (wf_scale (wf_subtract hla.2 hla.1)
        (wf_div (wf_cross (wf_subtract hlb.1 hla.1) (wf_subtract hlb.2 hlb.1))))

theorem forall2_of_map_val : ∀ {l l' : List Pt}, l.map pointVal = l'.map pointVal →
    (∀ p ∈ l, p.Wf) → (∀ p ∈ l', p.Wf) → List.Forall₂ PtValEq l l'
  | [], [], _, _, _ => List.Forall₂.nil
  | [], _ :: _, h, _, _ => by simp at h
  | _ :: _, [], h, _, _ => by simp at h
  | a :: l, b :: l', h, hw, hw' => by
    simp only [List.map_cons, List.cons.injEq] at h
    exact List.Forall₂.cons ⟨hw a (by simp), hw' b (by simp), h.1⟩
      (forall2_of_map_val h.2 (fun x hx => hw x (by simp [hx]))
        (fun x hx => hw' x (by simp [hx])))

theorem forall2_filter {l l' : List Pt} (p p' : Pt → Bool)
    (hdet : ∀ a b, PtValEq a b → p a = p' b)
    (h : List.Forall₂ PtValEq l l') :
    List.Forall₂ PtValEq (l.filter p) (l'.filter p') := by
  induction h with
  | nil => exact List.Forall₂.nil
  | @cons a b l1 l2 hab htl ih =>
    simp only [List.filter_cons]
    rw [hdet a b hab]
    by_cases hb : p' b = true
    · rw [if_pos hb, if_pos hb]
      exact List.Forall₂.cons hab ih
    · rw [if_neg hb, if_neg hb]
      exact ih

theorem toFixed4_val_det {a b : Q} (ha : a.Wf) (hb : b.Wf) (h : qVal a = qVal b) :
    toFixed4 a = toFixed4 b := by
  have hsign : (a.num < 0) ↔ (b.num < 0) := by rw [qnum_neg_iff ha, qnum_neg_iff hb, h]
  have hcross : a.num * (b.den : ℤ) = b.num * (a.den : ℤ) := (qVal_eq_cross ha hb).mp h
  have hnat : a.num.natAbs * b.den = b.num.natAbs * a.den := by
    have h2 := congrArg Int.natAbs hcross
    simpa [Int.natAbs_mul] using h2
  have hm : (a.num.natAbs * 20000 + a.den) / (2 * a.den) =
      (b.num.natAbs * 20000 + b.den) / (2 * b.den) := by
    have h1 : (a.num.natAbs * 20000 + a.den) / (2 * a.den) =
        ((a.num.natAbs * 20000 + a.den) * b.den) / ((2 * a.den) * b.den) :=
      (Nat.mul_div_mul_right _ _ hb).symm
    have h2 : (b.num.natAbs * 20000 + b.den) / (2 * b.den) =
        ((b.num.natAbs * 20000 + b.den) * a.den) / ((2 * b.den) * a.den) :=
      (Nat.mul_div_mul_right _ _ ha).symm
    rw [h1, h2]
    have h3 : a.num.natAbs * 20000 * b.den = b.num.natAbs * 20000 * a.den := by
      rw [mul_right_comm, hnat, mul_right_comm]
    have hnum : (a.num.natAbs * 20000 + a.den) * b.den =
        (b.num.natAbs * 20000 + b.den) * a.den := by
      rw [add_mul, add_mul, h3, mul_comm a.den b.den]
    have hden : (2 * a.den) * b.den = (2 * b.den) * a.den := by ring
    rw [hnum, hden]
  simp only [toFixed4, hm, hsign]

theorem pointKey_val_det {p q : Pt} (hp : p.Wf) (hq : q.Wf) (h : pointVal p = pointVal q) :
    pointKey p = pointKey q := by
  unfold pointKey
  rw [toFixed4_val_det hp.1 hq.1 (congrArg Prod.fst h),
    toFixed4_val_det hp.2 hq.2 (congrArg Prod.snd h)]

theorem forall2_map_key {l l' : List Pt} (h : List.Forall₂ PtValEq l l') :
    l.map pointKey = l'.map pointKey := by
  induction h with
  | nil => rfl
  | cons hab htl ih =>
    rw [List.map_cons, List.map_cons, pointKey_val_det hab.1 hab.2.1 hab.2.2, ih]

theorem wf_small_eps : (⟨1, 10000⟩ : Q).Wf := by decide

theorem pair_keyset_swap (a b : Primitive) (ha : a.Wf) (hb : b.Wf) :
    ((pairIntersections b a).map pointKey).toFinset =
      ((pairIntersections a b).map pointKey).toFinset := by
  cases a with
  | line la =>
    cases b with
    | line lb =>
      have f2 := forall2_of_map_val (lineLine_swap la lb ha hb)
        (lineLine_mem_wf lb la hb ha) (lineLine_mem_wf la lb ha hb)
      show ((lineLineIntersectionSegment lb la).map pointKey).toFinset =
        ((lineLineIntersectionSegment la lb).map pointKey).toFinset
      rw [forall2_map_key f2]
    | circle cb => rfl
    | arc ab => rfl
  | circle ca =>
    cases b with
    | line lb => rfl
    | circle cb =>
      have hkey := forall2_map_key (circleCircle_swap ca cb ha hb)
      show ((circleCircleIntersections cb ca).map pointKey).toFinset =
        ((circleCircleIntersections ca cb).map pointKey).toFinset
      rw [hkey, List.map_reverse, List.toFinset_reverse]
    | arc ab =>
      have hcf : (circleFromArc ab).Wf := wf_circleFromArc hb
      have f2 := circleCircle_swap ca (circleFromArc ab) ha hcf
      have f3 := forall2_filter
        (fun point => isPointOnArcSweep point (normalizeArc ab) ⟨1, 10000⟩)
        (fun point => isPointOnArcSweep point (normalizeArc ab) ⟨1, 10000⟩)
        (fun x y hxy =>
          isPointOnArcSweep_val_det (wf_normalizeArc hb) wf_small_eps hxy.1 hxy.2.1 hxy.2.2)
        f2
      rw [List.filter_reverse] at f3
      show (((circleCircleIntersections (circleFromArc ab) ca).filter
          (fun point => isPointOnArcSweep point (normalizeArc ab) ⟨1, 10000⟩)).map pointKey).toFinset =
        (((circleCircleIntersections ca (circleFromArc ab)).filter
          (fun point => isPointOnArcSweep point (normalizeArc ab) ⟨1, 10000⟩)).map pointKey).toFinset
      rw [forall2_map_key f3, List.map_reverse, List.toFinset_reverse]
  | arc aa =>
    cases b with
    | line lb => rfl
    | circle cb =>
      have hcf : (circleFromArc aa).Wf := wf_circleFromArc ha
      have f2 := circleCircle_swap (circleFromArc aa) cb hcf hb
      have f3 := forall2_filter
        (fun point => isPointOnArcSweep point (normalizeArc aa) ⟨1, 10000⟩)
        (fun point => isPointOnArcSweep point (normalizeArc aa) ⟨1, 10000⟩)
        (fun x y hxy =>
          isPointOnArcSweep_val_det (wf_normalizeArc ha) wf_small_eps hxy.1 hxy.2.1 hxy.2.2)
        f2
      rw [List.filter_reverse] at f3
      show (((circleCircleIntersections cb (circleFromArc aa)).filter
          (fun point => isPointOnArcSweep point (normalizeArc aa) ⟨1, 10000⟩)).map pointKey).toFinset =
        (((circleCircleIntersections (circleFromArc aa) cb).filter
          (fun point => isPointOnArcSweep point (normalizeArc aa) ⟨1, 10000⟩)).map pointKey).toFinset
      rw [forall2_map_key f3, List.map_reverse, List.toFinset_reverse]
    | arc ab =>
      have hcfa : (circleFromArc aa).Wf := wf_circleFromArc ha
      have hcfb : (circleFromArc ab).Wf := wf_circleFromArc hb
      have f2 := circleCircle_swap (circleFromArc aa) (circleFromArc ab) hcfa hcfb
      have f3 := forall2_filter
        (fun point => isPointOnArcSweep point (normalizeArc ab) ⟨1, 10000⟩ &&
          isPointOnArcSweep point (normalizeArc aa) ⟨1, 10000⟩)
        (fun point => isPointOnArcSweep point (normalizeArc aa) ⟨1, 10000⟩ &&
          isPointOnArcSweep point (normalizeArc ab) ⟨1, 10000⟩)
        (fun x y hxy => by
          have h1 : isPointOnArcSweep x (normalizeArc aa) ⟨1, 10000⟩ =
              isPointOnArcSweep y (normalizeArc aa) ⟨1, 10000⟩ :=
            isPointOnArcSweep_val_det (wf_normalizeArc ha) wf_small_eps hxy.1 hxy.2.1 hxy.2.2
          have h2 : isPointOnArcSweep x (normalizeArc ab) ⟨1, 10000⟩ =
              isPointOnArcSweep y (normalizeArc ab) ⟨1, 10000⟩ :=
            isPointOnArcSweep_val_det (wf_normalizeArc hb) wf_small_eps hxy.1 hxy.2.1 hxy.2.2
          show (isPointOnArcSweep x (normalizeArc ab) ⟨1, 10000⟩ &&
              isPointOnArcSweep x (normalizeArc aa) ⟨1, 10000⟩) =
            (isPointOnArcSweep y (normalizeArc aa) ⟨1, 10000⟩ &&
              isPointOnArcSweep y (normalizeArc ab) ⟨1, 10000⟩)
          rw [h1, h2, Bool.and_comm])
        f2
      rw [List.filter_reverse] at f3
      show (((circleCircleIntersections (circleFromArc ab) (circleFromArc aa)).filter
          (fun point => isPointOnArcSweep point (normalizeArc ab) ⟨1, 10000⟩ &&
            isPointOnArcSweep point (normalizeArc aa) ⟨1, 10000⟩)).map pointKey).toFinset =
        (((circleCircleIntersections (circleFromArc aa) (circleFromArc ab)).filter
          (fun point => isPointOnArcSweep point (normalizeArc aa) ⟨1, 10000⟩ &&
            isPointOnArcSweep point (normalizeArc ab) ⟨1, 10000⟩)).map pointKey).toFinset
      rw [forall2_map_key f3, List.map_reverse, List.toFinset_reverse]

theorem mapSet_fst_toFinset (m : List (String × Pt)) (k : String) (v : Pt) :
    ((mapSet m k v).map Prod.fst).toFinset = insert k (m.map Prod.fst).toFinset := by
  induction m with
  | nil => simp [mapSet]
  | cons e rest ih =>
    obtain ⟨k2, w⟩ := e
    by_cases hk : k2 = k
    · subst hk
      simp [mapSet]
    · simp only [mapSet, if_neg hk, List.map_cons, List.toFinset_cons, ih]
      exact Finset.Insert.comm _ _ _

theorem mapSet_snd_key (k : String) (v : Pt) (hv : pointKey v = k) :
    ∀ m : List (String × Pt), (∀ e ∈ m, pointKey e.2 = e.1) →
      ∀ e ∈ mapSet m k v, pointKey e.2 = e.1 := by
  intro m
  induction m with
  | nil =>
    intro _ e he
    simp only [mapSet, List.mem_singleton] at he
    subst he
    exact hv
  | cons e2 rest ih =>
    obtain ⟨k2, w⟩ := e2
    intro hm e he
    simp only [mapSet] at he
    by_cases hk : k2 = k
    · rw [if_pos hk] at he
      rcases List.mem_cons.mp he with h | h
      · subst h
        simp [hv, hk]
      · exact hm _ (List.mem_cons_of_mem _ h)
    · rw [if_neg hk] at he
      rcases List.mem_cons.mp he with h | h
      · subst h
        exact hm _ (List.mem_cons_self _ _)
      · exact ih (fun e3 he3 => hm e3 (List.mem_cons_of_mem _ he3)) e h

theorem dedup_foldl_keys : ∀ (l : List Pt) (m : List (String × Pt)),
    ((l.foldl (fun m p => mapSet m (pointKey p) p) m).map Prod.fst).toFinset =
      (m.map Prod.fst).toFinset ∪ (l.map pointKey).toFinset := by
  intro l
  induction l with
  | nil => intro m; simp
  | cons p ps ih =>
    intro m
    rw [List.foldl_cons, ih, mapSet_fst_toFinset]
    ext x
    simp only [List.map_cons, List.toFinset_cons, Finset.mem_union, Finset.mem_insert]
    tauto

theorem dedup_foldl_inv : ∀ (l : List Pt) (m : List (String × Pt)),
    (∀ e ∈ m, pointKey e.2 = e.1) →
    ∀ e ∈ l.foldl (fun m p => mapSet m (pointKey p) p) m, pointKey e.2 = e.1 := by
  intro l
  induction l with
  | nil => intro m hm; exact hm
  | cons p ps ih =>
    intro m hm
    rw [List.foldl_cons]
    exact ih _ (mapSet_snd_key (pointKey p) p rfl m hm)

theorem dedup_keyset (l : List Pt) :
    ((dedupPoints l).map pointKey).toFinset = (l.map pointKey).toFinset := by
  unfold dedupPoints
  rw [List.map_map]
  have hinv := dedup_foldl_inv l [] (by simp)
  have hmap : (l.foldl (fun m p => mapSet m (pointKey p) p) []).map (pointKey ∘ Prod.snd) =
      (l.foldl (fun m p => mapSet m (pointKey p) p) []).map Prod.fst :=
    List.map_congr_left (fun e he => hinv e he)
  rw [hmap, dedup_foldl_keys]
  simp

/-- C5 (amended): the `pointKey` key set of `intersections` on a two-element
list is independent of the order of the two primitives, and the counts are
right on the claim's concrete examples: the two perpendicular diameters meet
in exactly the point (0,0), and the diameter-length line through the radius-5
circle meets it in exactly the two points (5,0) and (-5,0). -/
theorem c5_intersections_key_symm :
    (∀ A B : Primitive, A.Wf → B.Wf →
      ((intersections [A, B]).map pointKey).toFinset =
        ((intersections [B, A]).map pointKey).toFinset) ∧
    (intersections [c5Diam1, c5Diam2]).map pointVal = [((0 : ℚ), (0 : ℚ))] ∧
    (intersections [c5Line5, c5Circle5]).map pointVal =
      [((5 : ℚ), (0 : ℚ)), ((-5 : ℚ), (0 : ℚ))] := by
  refine ⟨fun A B hA hB => ?_, ?_, ?_⟩
  · rw [intersections_pair, intersections_pair, dedup_keyset, dedup_keyset]
    exact (pair_keyset_swap A B hA hB).symm
  · have h : intersections [c5Diam1, c5Diam2] = [⟨⟨0, 1600⟩, ⟨0, 1600⟩⟩] := by decide
    rw [h]
    simp only [List.map_cons, List.map_nil, pointVal, qVal]
    norm_num
  · have h : intersections [c5Line5, c5Circle5] =
        [⟨⟨1000000000000000, 200000000000000⟩, ⟨0, 200000000000000⟩⟩,
         ⟨⟨-1000000000000000, 200000000000000⟩, ⟨0, 200000000000000⟩⟩] := by decide
    rw [h]
    simp only [List.map_cons, List.map_nil, pointVal, qVal]
    norm_num

/-- C5 (counterexample to the literal order-independence of the point list):
for the two near-tangent circles of radius 10 + 1e-11 with centers (0,10) and
(20,10), each evaluation order returns a single intersection point, the two
surviving points differ in their y coordinate as exact rationals, yet both
carry the same `pointKey` — the last-value-wins Map dedup keeps a different
survivor per order, so `intersections([A,B]) = intersections([B,A])` fails
pointwise while the amended key-set statement still holds. -/
theorem c5_order_dependent_counterexample :
    (intersections [c5NearA, c5NearB]).length = 1 ∧
    (intersections [c5NearB, c5NearA]).length = 1 ∧
    (∀ p ∈ intersections [c5NearA, c5NearB], ∀ q ∈ intersections [c5NearB, c5NearA],
      qNe p.y q.y) ∧
    (intersections [c5NearA, c5NearB]).map pointKey =
      (intersections [c5NearB, c5NearA]).map pointKey := by
  decide

/-- C5 witness: the amended order-independence applied to the two diameters. -/
theorem c5_intersections_key_symm_witness :
    ((intersections [c5Diam1, c5Diam2]).map pointKey).toFinset =
      ((intersections [c5Diam2, c5Diam1]).map pointKey).toFinset :=
  c5_intersections_key_symm.1 c5Diam1 c5Diam2 (by unfold c5Diam1; decide)
    (by unfold c5Diam2; decide)
